import Mathlib

/-!
Verification of the polymarketMM liquidity-provision bot.

This file gives a shallow embedding, in Lean 4, of the trading state machine
implemented in `order_manager.py`, `utils.py`, `config.py` and the recovery
SELL path of `bot.py`, and proves (or refutes) the frozen specification
claims about it.

Modelling conventions:
* Python floats that carry prices, sizes and timestamps are modelled as
  exact rationals.  Python's `round(x, n)` (banker's rounding to `n`
  decimal digits) is modelled exactly by `pyRound`.
* String identifiers (order ids, token ids, condition ids) stay strings.
* Python dicts are modelled by insertion-ordered association lists with
  first-match lookup (`alookup`), in-place update (`ainsert`) and removal
  (`aerase`), matching CPython dict semantics.
* Exchange and data-API I/O is modelled by explicit environment arguments:
  each REST call's response is an input to the transition function
  (`Option` for calls that can fail).  Every call of `_place_order` is
  additionally recorded in an `OrderRequest` trace so that claims about
  "orders placed / submitted" can be stated; `submitted = true` means the
  request passed the sanity checks and was posted to the exchange, and the
  environment then decides whether an order id comes back.
* `time.time()` is modelled by a single `now : ℚ` argument per call.
-/

set_option linter.unusedVariables false

/-! ### Association lists (Python dict model) -/

/-- First-match lookup in an association list (Python `d.get(k)`). -/
def alookup {α β : Type} [DecidableEq α] : List (α × β) → α → Option β
  | [], _ => none
  | (k, v) :: rest, a => if k = a then some v else alookup rest a

/-- In-place update: replace the value at the first occurrence of the key,
or append the binding at the end (Python `d[k] = v`). -/
def ainsert {α β : Type} [DecidableEq α] : List (α × β) → α → β → List (α × β)
  | [], a, b => [(a, b)]
  | (k, v) :: rest, a, b =>
    if k = a then (k, b) :: rest else (k, v) :: ainsert rest a b

/-- Remove the first binding of a key (Python `del d[k]` / `d.pop(k, None)`). -/
def aerase {α β : Type} [DecidableEq α] : List (α × β) → α → List (α × β)
  | [], _ => []
  | (k, v) :: rest, a => if k = a then rest else (k, v) :: aerase rest a

/-! ### Python `round` and the price-rounding helpers of `utils.py` -/

/-- Round a rational to the nearest integer, ties to the even integer
(CPython's rounding mode for `round`). -/
def rhe (x : ℚ) : ℤ :=
  let f := ⌊x⌋
  let r := x - f
  if r < 1/2 then f
  else if 1/2 < r then f + 1
  else if f % 2 = 0 then f else f + 1

/-- Python `round(x, n)`: round to `n` decimal digits, ties to even. -/
def pyRound (x : ℚ) (n : ℕ) : ℚ := (rhe (x * 10 ^ n) : ℚ) / 10 ^ n

/-- `x` is an integer multiple of `10^(-n)`, i.e. a decimal number with at
most `n` fractional digits.  Exchange prices, sizes and spreads are such
numbers; these are the values a faithful float run can actually carry. -/
def onGrid (n : ℕ) (x : ℚ) : Prop := ∃ k : ℤ, x = (k : ℚ) / 10 ^ n

/-- `utils.round_price_down`: round price DOWN to the nearest tick. -/
def round_price_down (price tick_size : ℚ) : ℚ :=
  pyRound ((⌊pyRound (price / tick_size) 8⌋ : ℚ) * tick_size) 6

/-- `utils.round_price_up`: round price UP to the nearest tick. -/
def round_price_up (price tick_size : ℚ) : ℚ :=
  pyRound ((⌈pyRound (price / tick_size) 8⌉ : ℚ) * tick_size) 6

/-- `utils.clamp_price`: clamp into the CLOB range `[tick, 1 - tick]`. -/
def clamp_price (price tick_size : ℚ) : ℚ :=
  max tick_size (min price (1 - tick_size))

/-- `utils.get_size_multiplier`, determined by the peak-hours schedule. -/
def get_size_multiplier (is_peak : Bool) : ℚ :=
  if is_peak then PEAK_SIZE_MULTIPLIER else OFF_PEAK_SIZE_MULTIPLIER
where
  PEAK_SIZE_MULTIPLIER : ℚ := 1
  OFF_PEAK_SIZE_MULTIPLIER : ℚ := 1

/-! ### Constants from `config.py` (only those the modelled code reads) -/

def SPREAD_BUFFER_FRACTION : ℚ := 2/5
def MIN_SPREAD_BUFFER : ℚ := 1/500
def MAX_ORDER_SIZE : ℚ := 500
def MAX_SINGLE_ORDER_USDC : ℚ := 250
def MAX_INVENTORY_PER_SIDE : ℚ := 300
def MAX_ORDERS_PER_MARKET : ℕ := 3
def MAX_SELL_RETRIES : ℚ := 5
def FILL_COOLDOWN_SECONDS : ℚ := 300
def MAX_FILLS_BEFORE_BLOCK : ℕ := 3
def GLOBAL_CIRCUIT_BREAKER : Bool := true
def GLOBAL_FILL_PAUSE_SECONDS : ℚ := 120
def MARKET_BLACKLIST_SECONDS : ℚ := 7200
def RESCAN_INTERVAL_SECONDS : ℚ := 180
def ORDER_GRACE_PERIOD_SECONDS : ℚ := 30

/-! ### Data model (`order_manager.py` dataclasses) -/

/-- Order side; the source uses the strings `"BUY"` and `"SELL"`. -/
inductive Side where
  | buy
  | sell
deriving DecidableEq, Repr

/-- `order_manager.ActiveOrder`. -/
structure ActiveOrder where
  order_id : String
  token_id : String
  side : Side
  price : ℚ
  size : ℚ
  condition_id : String
  placed_at : ℚ
  midpoint_at_placement : ℚ
deriving DecidableEq, Repr

/-- `order_manager.FillEvent`. -/
structure FillEvent where
  token_id : String
  side : Side
  price : ℚ
  size : ℚ
  condition_id : String
deriving DecidableEq, Repr

/-- `order_manager.MarketPosition`. -/
structure MarketPosition where
  condition_id : String
  token_id_yes : String
  token_id_no : String
  max_spread : ℚ
  min_size : ℚ
  tick_size : ℚ
  orders : List ActiveOrder := []
  last_midpoint : ℚ := 0
  yes_inventory : ℚ := 0
  no_inventory : ℚ := 0
  yes_entry_price : ℚ := 0
  no_entry_price : ℚ := 0
  yes_fill_times : List ℚ := []
  no_fill_times : List ℚ := []
  yes_last_sell_fill : ℚ := 0
  no_last_sell_fill : ℚ := 0
  yes_blocked : Bool := false
  no_blocked : Bool := false
deriving DecidableEq, Repr

/-- Keys of the `_sell_fail_counts` dict.  The source stores consecutive
failure counts under `(cid, token_id)` and retry timestamps under
`("_last_retry", cid, token_id)` in the same dict; values are numbers. -/
inductive FailKey where
  | pair (cid token_id : String)
  | lastRetry (cid token_id : String)
deriving DecidableEq, Repr

/-- The mutable state of `OrderManager` (the Position Ledger plus the
module-level safety state). -/
structure OMState where
  positions : List (String × MarketPosition) := []
  sell_fail_counts : List (FailKey × ℚ) := []
  phantom_tokens : List String := []
  last_global_fill : ℚ := 0
  market_blacklist : List (String × ℚ) := []
deriving DecidableEq, Repr

/-- Field-update helpers for `OMState` (Python attribute assignment on the
manager object); using named updates keeps frame reasoning local. -/
def OMState.setPositions (st : OMState) (ps : List (String × MarketPosition)) :
    OMState := { st with positions := ps }

def OMState.setCounts (st : OMState) (c : List (FailKey × ℚ)) : OMState :=
  { st with sell_fail_counts := c }

def OMState.setPhantoms (st : OMState) (p : List String) : OMState :=
  { st with phantom_tokens := p }

def OMState.setLastGlobalFill (st : OMState) (t : ℚ) : OMState :=
  { st with last_global_fill := t }

def OMState.setBlacklist (st : OMState) (b : List (String × ℚ)) : OMState :=
  { st with market_blacklist := b }

/-- One call of `OrderManager._place_order` (or a direct submission in the
recovery path), as recorded in the trace of a transition function.
`submitted` is true when the request passed the pre-submission sanity
checks and was actually posted to the exchange. -/
structure OrderRequest where
  token_id : String
  price : ℚ
  size : ℚ
  side : Side
  condition_id : String
  submitted : Bool
deriving DecidableEq, Repr

/-! ### Pure pricing logic (`OrderManager` static parts) -/

/-- `OrderManager._compute_buffer`. -/
def compute_buffer (max_spread tick_size : ℚ) : ℚ :=
  max (max (max_spread * SPREAD_BUFFER_FRACTION) MIN_SPREAD_BUFFER) tick_size

/-- One side of `OrderManager.calculate_order_prices`: the BUY price at the
edge of the reward range for a side whose midpoint is `m`.  The source
performs this computation twice, once with `midpoint` and once with
`1 - midpoint`. -/
def buy_price_one (m max_spread tick_size : ℚ) : ℚ :=
  let buffer := compute_buffer max_spread tick_size
  let effective_spread := max_spread - buffer
  let p := round_price_down (m - effective_spread) tick_size
  let p := clamp_price p tick_size
  if max_spread ≤ pyRound (m - p) 8 then clamp_price (p + tick_size) tick_size
  else p

/-- `OrderManager.calculate_order_prices`: `(BUY Yes price, BUY No price)`. -/
def calculate_order_prices (midpoint max_spread tick_size : ℚ) : ℚ × ℚ :=
  (buy_price_one midpoint max_spread tick_size,
   buy_price_one (1 - midpoint) max_spread tick_size)

/-- `OrderManager._calculate_sell_price` (the `max_spread` argument is
unused by the source body as well). -/
def calculate_sell_price (midpoint max_spread tick_size : ℚ) (is_yes : Bool) : ℚ :=
  if is_yes then clamp_price (round_price_down midpoint tick_size) tick_size
  else clamp_price (round_price_down (1 - midpoint) tick_size) tick_size

/-- `OrderManager._get_order_status`, given a successfully decoded
`get_order` response with fields `status` (upper-cased) and
`size_matched`.  An API error yields `"UNKNOWN"` in the caller. -/
def classify_order_status (status : String) (size_matched : ℚ) : String :=
  if status = "MATCHED" ∨ 0 < size_matched then "MATCHED"
  else if status = "CANCELLED" ∨ status = "EXPIRED" then "CANCELLED"
  else "LIVE"

/-- `OrderManager._get_order_status` including the I/O wrapper: `resp` is
the decoded `get_order` response (`none` when the call raised). -/
def get_order_status (resp : Option (String × ℚ)) : String :=
  match resp with
  | some (status, size_matched) => classify_order_status status size_matched
  | none => "UNKNOWN"

/-! ### OrderManager state transitions -/

/-- `OrderManager.is_global_paused`. -/
def is_global_paused (st : OMState) (now : ℚ) : Bool :=
  GLOBAL_CIRCUIT_BREAKER &&
    (decide (0 < st.last_global_fill) &&
     decide (now - st.last_global_fill < GLOBAL_FILL_PAUSE_SECONDS))

/-- `OrderManager.blacklist_market`. -/
def blacklist_market (st : OMState) (condition_id : String) (now : ℚ) : OMState :=
  st.setBlacklist (ainsert st.market_blacklist condition_id now)

/-- `OrderManager.is_blacklisted`.  Returns the answer and the state (an
expired entry is deleted on the way). -/
def is_blacklisted (st : OMState) (condition_id : String) (now : ℚ) :
    Bool × OMState :=
  match alookup st.market_blacklist condition_id with
  | none => (false, st)
  | some bl_time =>
    if MARKET_BLACKLIST_SECONDS ≤ now - bl_time then
      (false, st.setBlacklist (aerase st.market_blacklist condition_id))
    else (true, st)

/-- `OrderManager.cancel_all_buys`: drop every BUY from every position
(the exchange-side cancels are I/O). -/
def cancel_all_buys (st : OMState) : OMState :=
  st.setPositions (st.positions.map (fun cp =>
    (cp.1, { cp.2 with orders := cp.2.orders.filter (fun o => o.side ≠ Side.buy) })))

/-- `OrderManager._track_order`: append to the position's order list unless
the per-market cap is hit (in which case the just-placed order is cancelled
on the exchange and dropped). -/
def track_order (position : MarketPosition) (order : ActiveOrder) :
    MarketPosition × Bool :=
  if MAX_ORDERS_PER_MARKET ≤ position.orders.length then (position, false)
  else ({ position with orders := position.orders ++ [order] }, true)

/-- `OrderManager._place_order`.  The pure sanity checks come from the
source; the exchange's answer is the environment argument `resp`
(`some oid` when the posted order was accepted with id `oid`, `none` for a
rejection, an exception, or a missing id).  Returns the tracked order (if
any) and the trace record of this call. -/
def place_order (st : OMState) (token_id : String) (price size : ℚ)
    (side : Side) (condition_id : String) (midpoint : ℚ) (now : ℚ)
    (min_order_size : ℚ) (resp : Option String) :
    Option ActiveOrder × OrderRequest :=
  let reject : Option ActiveOrder × OrderRequest :=
    (none, ⟨token_id, price, size, side, condition_id, false⟩)
  if price ≤ 0 ∨ 1 ≤ price ∨ size ≤ 0 then reject
  else if MAX_ORDER_SIZE < size then reject
  else if MAX_SINGLE_ORDER_USDC < price * size then reject
  else if side = Side.buy ∧
      (match alookup st.positions condition_id with
       | some position =>
         let current_inv := if token_id = position.token_id_yes
           then position.yes_inventory else position.no_inventory
         decide (MAX_INVENTORY_PER_SIDE < current_inv + size)
       | none => false) = true then reject
  else
    let req : OrderRequest := ⟨token_id, price, size, side, condition_id, true⟩
    match resp with
    | some oid =>
      (some ⟨oid, token_id, side, price, size, condition_id, now, midpoint⟩, req)
    | none => (none, req)

/-- `OrderManager.cancel_market_orders`: cancel every tracked order of the
market; if every cancel succeeded, delete the position.  `cancel_ok`
reports, per order id, whether the exchange cancel call succeeded. -/
def cancel_market_orders (st : OMState) (condition_id : String)
    (cancel_ok : String → Bool) : OMState × Bool :=
  match alookup st.positions condition_id with
  | none => (st, true)
  | some position =>
    let success := position.orders.all (fun o => cancel_ok o.order_id)
    if success then
      (st.setPositions (aerase st.positions condition_id), true)
    else (st, false)

/-- A position is dropped by the cleanup passes when it tracks no orders
and holds no inventory. -/
def posEmpty (p : MarketPosition) : Prop :=
  p.orders = [] ∧ p.yes_inventory = 0 ∧ p.no_inventory = 0

instance (p : MarketPosition) : Decidable (posEmpty p) := by
  unfold posEmpty; infer_instance

/-- Drop every position with no orders and no inventory (the cleanup loop
at the end of the fill handlers and the retry sweep). -/
def cleanupPositions (positions : List (String × MarketPosition)) :
    List (String × MarketPosition) :=
  positions.filter (fun cp => ¬ posEmpty cp.2)

/-- Python `set.add` on a set modelled as a duplicate-free list. -/
def listInsert (l : List String) (t : String) : List String :=
  if t ∈ l then l else l ++ [t]

/-! ### Fill handling -/

/-- The fill-aggregation pass at the top of `handle_filled_orders`:
sum sizes per `(condition_id, token_id, side)`, keeping the first-arrival
order of keys (CPython dict iteration order). -/
def aggregate_fills (fills : List FillEvent) :
    List ((String × String × Side) × ℚ) :=
  fills.foldl (fun acc fill =>
    let key := (fill.condition_id, fill.token_id, fill.side)
    ainsert acc key ((alookup acc key).getD 0 + fill.size)) []

/-- Environment for one aggregated key of `handle_filled_orders`: the
fresh-midpoint fetch (`none` when unavailable or out of range) and the
exchange's answer to the unwind SELL, if one is posted. -/
structure FillKeyEnv where
  mid : Option ℚ
  sell_resp : Option String

/-- The BUY case of the `handle_filled_orders` loop body (entered with the
fresh midpoint already written into `position.last_midpoint`).  Returns the
new state and the requests issued by this key. -/
def hfo_buy_branch (st : OMState) (cid token_id : String) (is_yes : Bool)
    (total_size mid : ℚ) (position : MarketPosition) (envi : FillKeyEnv)
    (now : ℚ) : OMState × List OrderRequest :=
  let position :=
    if is_yes then
      { position with yes_inventory := position.yes_inventory + total_size,
                      yes_entry_price := mid,
                      yes_fill_times := position.yes_fill_times ++ [now] }
    else
      { position with no_inventory := position.no_inventory + total_size,
                      no_entry_price := mid,
                      no_fill_times := position.no_fill_times ++ [now] }
  let inv := if is_yes then position.yes_inventory else position.no_inventory
  let position :=
    { position with orders := position.orders.filter (fun o => o.side ≠ Side.buy) }
  let st := st.setPositions (ainsert st.positions cid position)
  let st :=
    if GLOBAL_CIRCUIT_BREAKER then
      cancel_all_buys (st.setLastGlobalFill now)
    else st
  let position := (alookup st.positions cid).getD position
  let fill_times := if is_yes then position.yes_fill_times else position.no_fill_times
  let recent := fill_times.filter (fun t => now - t < FILL_COOLDOWN_SECONDS)
  let position :=
    if MAX_FILLS_BEFORE_BLOCK ≤ recent.length then
      if is_yes then { position with yes_blocked := true }
      else { position with no_blocked := true }
    else position
  let has_sell := position.orders.any
    (fun o => o.side = Side.sell ∧ o.token_id = token_id)
  if has_sell then
    (st.setPositions (ainsert st.positions cid position), [])
  else
    let sell_price :=
      calculate_sell_price mid position.max_spread position.tick_size is_yes
    let por := place_order st token_id sell_price inv Side.sell
      cid mid now position.min_size envi.sell_resp
    let position := match por.1 with
      | some o => (track_order position o).1
      | none => position
    (st.setPositions (ainsert st.positions cid position), [por.2])

/-- The SELL case of the `handle_filled_orders` loop body. -/
def hfo_sell_branch (st : OMState) (cid : String) (is_yes : Bool)
    (total_size : ℚ) (position : MarketPosition) (now : ℚ) :
    OMState × List OrderRequest :=
  let position :=
    if is_yes then
      { position with yes_inventory := max 0 (position.yes_inventory - total_size),
                      yes_entry_price := 0,
                      yes_last_sell_fill := now }
    else
      { position with no_inventory := max 0 (position.no_inventory - total_size),
                      no_entry_price := 0,
                      no_last_sell_fill := now }
  (st.setPositions (ainsert st.positions cid position), [])

/-- The loop body of `handle_filled_orders` for one aggregated
`(condition_id, token_id, side)` key. -/
def hfo_step (env : ℕ → FillKeyEnv) (now : ℚ)
    (acc : OMState × List OrderRequest)
    (item : ℕ × ((String × String × Side) × ℚ)) : OMState × List OrderRequest :=
  let (st, trace) := acc
  let (i, ((cid, token_id, side), total_size)) := item
  match alookup st.positions cid with
  | none => (st, trace)
  | some position =>
    let is_yes := decide (token_id = position.token_id_yes)
    let mid := ((env i).mid).getD position.last_midpoint
    let position := { position with last_midpoint := mid }
    if side = Side.buy then
      let res := hfo_buy_branch st cid token_id is_yes total_size mid position (env i) now
      (res.1, trace ++ res.2)
    else
      let res := hfo_sell_branch st cid is_yes total_size position now
      (res.1, trace ++ res.2)

/-- `OrderManager.handle_filled_orders`: aggregate the fills, process each
aggregated key, then drop fully-closed positions. -/
def handle_filled_orders (st : OMState) (fills : List FillEvent)
    (env : ℕ → FillKeyEnv) (now : ℚ) : OMState × List OrderRequest :=
  let res := (aggregate_fills fills).enum.foldl (hfo_step env now) (st, [])
  (res.1.setPositions (cleanupPositions res.1.positions), res.2)

/-! ### WebSocket fill handling -/

/-- Environment for `handle_ws_fill`: fresh-midpoint fetch and the
exchange's answer to the unwind SELL. -/
structure WsEnv where
  mid : Option ℚ
  sell_resp : Option String

/-- Find the first tracked order with the given id, scanning positions in
insertion order (the nested loops at the top of `handle_ws_fill`). -/
def find_tracked_order :
    List (String × MarketPosition) → String →
    Option (String × MarketPosition × ActiveOrder)
  | [], _ => none
  | (c, pos) :: rest, oid =>
    match pos.orders.find? (fun o => o.order_id = oid) with
    | some ord => some (c, pos, ord)
    | none => find_tracked_order rest oid

/-- The body of the untracked-order fallback of `handle_ws_fill` for one
position: try the YES side, then the NO side; act only when the token
matches and the side holds inventory. -/
def ws_untracked_update (asset_id : String) (size_matched now : ℚ)
    (pos : MarketPosition) : Option MarketPosition :=
  if pos.token_id_yes = asset_id ∧ 0 < pos.yes_inventory then
    let new_inv := max 0 (pos.yes_inventory - size_matched)
    let pos := { pos with yes_inventory := new_inv }
    let pos := if new_inv = 0 then
        { pos with yes_entry_price := 0, yes_last_sell_fill := now }
      else pos
    let kept := pos.orders.filter
      (fun o => ¬ (o.side = Side.sell ∧ o.token_id = pos.token_id_yes))
    some { pos with orders := kept }
  else if pos.token_id_no = asset_id ∧ 0 < pos.no_inventory then
    let new_inv := max 0 (pos.no_inventory - size_matched)
    let pos := { pos with no_inventory := new_inv }
    let pos := if new_inv = 0 then
        { pos with no_entry_price := 0, no_last_sell_fill := now }
      else pos
    let kept := pos.orders.filter
      (fun o => ¬ (o.side = Side.sell ∧ o.token_id = pos.token_id_no))
    some { pos with orders := kept }
  else none

/-- The untracked-order fallback of `handle_ws_fill`: scan positions in
order; on the first hit update that position (dropping it when fully
closed) and stop.  `none` means no position owns the asset (the event is
ignored). -/
def ws_untracked_scan (asset_id : String) (size_matched now : ℚ) :
    List (String × MarketPosition) → Option (List (String × MarketPosition))
  | [] => none
  | (c, pos) :: rest =>
    match ws_untracked_update asset_id size_matched now pos with
    | some pos2 => some (if posEmpty pos2 then rest else (c, pos2) :: rest)
    | none =>
      match ws_untracked_scan asset_id size_matched now rest with
      | some rest2 => some ((c, pos) :: rest2)
      | none => none

/-- Write the per-market end-of-call cleanup of `handle_ws_fill`: store the
updated position, or delete it when it tracks no orders and no
inventory. -/
def write_back_cleanup (st : OMState) (cid : String)
    (position : MarketPosition) : OMState :=
  if posEmpty position then st.setPositions (aerase st.positions cid)
  else st.setPositions (ainsert st.positions cid position)

/-- The BUY branch of `handle_ws_fill` (entered with the partial-fill
update already applied to `position`). -/
def ws_buy_branch (st : OMState) (cid : String) (position : MarketPosition)
    (token_id : String) (is_yes : Bool) (size_matched price : ℚ)
    (env : WsEnv) (now : ℚ) : OMState × List OrderRequest :=
  let position :=
    { position with orders := position.orders.filter (fun o => o.side ≠ Side.buy) }
  let st := st.setPositions (ainsert st.positions cid position)
  let st :=
    if GLOBAL_CIRCUIT_BREAKER then
      cancel_all_buys (st.setLastGlobalFill now)
    else st
  let st := blacklist_market st cid now
  let position := (alookup st.positions cid).getD position
  let position :=
    if is_yes then
      { position with yes_inventory := position.yes_inventory + size_matched,
                      yes_entry_price := price,
                      yes_fill_times := position.yes_fill_times ++ [now] }
    else
      { position with no_inventory := position.no_inventory + size_matched,
                      no_entry_price := price,
                      no_fill_times := position.no_fill_times ++ [now] }
  let fill_times := if is_yes then position.yes_fill_times else position.no_fill_times
  let recent := fill_times.filter (fun t => now - t < FILL_COOLDOWN_SECONDS)
  let position :=
    if MAX_FILLS_BEFORE_BLOCK ≤ recent.length then
      if is_yes then { position with yes_blocked := true }
      else { position with no_blocked := true }
    else position
  let has_sell := position.orders.any
    (fun o => o.side = Side.sell ∧ o.token_id = token_id)
  if has_sell then
    (st.setPositions (ainsert st.positions cid position), [])
  else
    let mid := env.mid.getD position.last_midpoint
    let position := { position with last_midpoint := mid }
    let inv := if is_yes then position.yes_inventory else position.no_inventory
    let sell_price :=
      calculate_sell_price mid position.max_spread position.tick_size is_yes
    let por := place_order st token_id sell_price inv Side.sell
      cid mid now position.min_size env.sell_resp
    let position := match por.1 with
      | some o => (track_order position o).1
      | none => position
    (write_back_cleanup st cid position, [por.2])

/-- The SELL branch of `handle_ws_fill` (entered with the partial-fill
update already applied to `position`). -/
def ws_sell_branch (st : OMState) (cid : String) (position : MarketPosition)
    (is_yes : Bool) (size_matched : ℚ) (now : ℚ) :
    OMState × List OrderRequest :=
  let position : MarketPosition :=
    if is_yes then
      let newInv := max 0 (position.yes_inventory - size_matched)
      let pos := { position with yes_inventory := newInv }
      if (pos.yes_inventory : ℚ) = 0 then
        { pos with yes_entry_price := 0, yes_last_sell_fill := now }
      else pos
    else
      let newInv := max 0 (position.no_inventory - size_matched)
      let pos := { position with no_inventory := newInv }
      if (pos.no_inventory : ℚ) = 0 then
        { pos with no_entry_price := 0, no_last_sell_fill := now }
      else pos
  (write_back_cleanup st cid position, [])

/-- `OrderManager.handle_ws_fill`.  The `side_field` argument is the trade
event's `side` field, which the source deliberately ignores (it is the
maker's side): the tracked order's side is used instead. -/
def handle_ws_fill (st : OMState) (order_id asset_id side_field : String)
    (size_matched price : ℚ) (env : WsEnv) (now : ℚ) :
    OMState × List OrderRequest :=
  match find_tracked_order st.positions order_id with
  | none =>
    match ws_untracked_scan asset_id size_matched now st.positions with
    | some ps => (st.setPositions ps, [])
    | none => (st, [])
  | some (cid, position, matched_order) =>
    let actual_side := matched_order.side
    let is_yes := decide (matched_order.token_id = position.token_id_yes)
    let remaining := matched_order.size - size_matched
    let position :=
      if 1/1000 < remaining then
        { position with orders := position.orders.map (fun o =>
            if o.order_id = order_id then { o with size := remaining } else o) }
      else
        { position with orders := position.orders.filter (fun o => o.order_id ≠ order_id) }
    if actual_side = Side.buy then
      ws_buy_branch st cid position matched_order.token_id is_yes size_matched price env now
    else
      ws_sell_branch st cid position is_yes size_matched now

/-! ### SELL retry sweep -/

/-- Environment for `retry_pending_sells`: the data-API on-chain balance
per token id, the midpoint fetch per queried token id, and the exchange's
answer per retried SELL (keyed by the token being sold). -/
structure RetryEnv where
  on_chain : String → ℚ
  mid : String → Option ℚ
  sell_resp : String → Option String

/-- The body of `retry_pending_sells` for one side of one position. -/
def retry_side (st : OMState) (cid : String) (pos : MarketPosition)
    (is_yes : Bool) (env : RetryEnv) (now : ℚ) :
    MarketPosition × OMState × List OrderRequest :=
  let token_id := if is_yes then pos.token_id_yes else pos.token_id_no
  let inv := if is_yes then pos.yes_inventory else pos.no_inventory
  if inv ≤ 0 then (pos, st, [])
  else if pos.orders.any (fun o => o.side = Side.sell ∧ o.token_id = token_id) then
    (pos, st, [])
  else
    let fail_key := FailKey.pair cid token_id
    let fail_count := (alookup st.sell_fail_counts fail_key).getD 0
    if MAX_SELL_RETRIES ≤ fail_count then
      let actual_on_chain := env.on_chain token_id
      if 1/2 < actual_on_chain then
        let pos := if is_yes then { pos with yes_inventory := actual_on_chain }
          else { pos with no_inventory := actual_on_chain }
        (pos, st.setCounts (ainsert st.sell_fail_counts fail_key 0), [])
      else
        let pos := if is_yes then { pos with yes_inventory := 0, yes_entry_price := 0 }
          else { pos with no_inventory := 0, no_entry_price := 0 }
        (pos, (st.setCounts (aerase st.sell_fail_counts fail_key)).setPhantoms
          (listInsert st.phantom_tokens token_id), [])
    else
      let last_attempt :=
        (alookup st.sell_fail_counts (FailKey.lastRetry cid token_id)).getD 0
      if now - last_attempt < RESCAN_INTERVAL_SECONDS then (pos, st, [])
      else
        let counts2 := ainsert st.sell_fail_counts (FailKey.lastRetry cid token_id) now
        let st := st.setCounts counts2
        let mid := (env.mid pos.token_id_yes).getD pos.last_midpoint
        let sell_price := calculate_sell_price mid pos.max_spread pos.tick_size is_yes
        let por := place_order st token_id sell_price inv Side.sell
          cid mid now pos.min_size (env.sell_resp token_id)
        match por.1 with
        | some o =>
          ((track_order pos o).1,
           st.setCounts (aerase st.sell_fail_counts fail_key), [por.2])
        | none =>
          let counts3 := ainsert st.sell_fail_counts fail_key (fail_count + 1)
          (pos, st.setCounts counts3, [por.2])

/-- The body of `retry_pending_sells` for one position: YES side then NO
side, then write the (mutated) position back. -/
def retry_body (env : RetryEnv) (now : ℚ) (acc : OMState × List OrderRequest)
    (item : String × MarketPosition) : OMState × List OrderRequest :=
  let (st, trace) := acc
  let (cid, pos0) := item
  let r1 := retry_side st cid pos0 true env now
  let r2 := retry_side r1.2.1 cid r1.1 false env now
  (r2.2.1.setPositions (ainsert r2.2.1.positions cid r2.1),
   trace ++ r1.2.2 ++ r2.2.2)

/-- `OrderManager.retry_pending_sells`: iterate over a snapshot of the
positions, then drop fully-cleared positions. -/
def retry_pending_sells (st : OMState) (env : RetryEnv) (now : ℚ) :
    OMState × List OrderRequest :=
  let res := st.positions.foldl (retry_body env now) (st, [])
  (res.1.setPositions (cleanupPositions res.1.positions), res.2)

/-! ### Initial placement, drift replacement, cooldown re-entry -/

/-- The scanner fields of `MarketOpportunity` that the order-placement
code reads. -/
structure MarketOpportunity where
  condition_id : String
  token_id_yes : String
  token_id_no : String
  midpoint : ℚ
  max_spread : ℚ
  min_size : ℚ
  tick_size : ℚ
deriving DecidableEq, Repr

/-- Environment for `place_two_sided_orders`. -/
structure PlaceEnv where
  buy_yes_resp : Option String
  buy_no_resp : Option String
  is_peak : Bool

/-- `OrderManager.place_two_sided_orders`: returns the updated state, the
created position (`none` when the call bailed out), and the request
trace. -/
def place_two_sided_orders (st : OMState) (opp : MarketOpportunity)
    (env : PlaceEnv) (now : ℚ) :
    OMState × Option MarketPosition × List OrderRequest :=
  if is_global_paused st now then (st, none, [])
  else
    let prices :=
      calculate_order_prices opp.midpoint opp.max_spread opp.tick_size
    let no_midpoint := 1 - opp.midpoint
    if opp.midpoint ≤ prices.1 ∨ no_midpoint ≤ prices.2 then (st, none, [])
    else
      let position : MarketPosition :=
        { condition_id := opp.condition_id, token_id_yes := opp.token_id_yes,
          token_id_no := opp.token_id_no, max_spread := opp.max_spread,
          min_size := opp.min_size, tick_size := opp.tick_size,
          last_midpoint := opp.midpoint }
      let buy_size := opp.min_size * get_size_multiplier env.is_peak
      let pr1 := place_order st opp.token_id_yes prices.1 buy_size
        Side.buy opp.condition_id opp.midpoint now 0 env.buy_yes_resp
      let position := match pr1.1 with
        | some o => (track_order position o).1
        | none => position
      let pr2 := place_order st opp.token_id_no prices.2 buy_size
        Side.buy opp.condition_id opp.midpoint now 0 env.buy_no_resp
      let position := match pr2.1 with
        | some o => (track_order position o).1
        | none => position
      if position.orders ≠ [] then
        (st.setPositions (ainsert st.positions opp.condition_id position),
         some position, [pr1.2, pr2.2])
      else (st, some position, [pr1.2, pr2.2])

/-- Environment for `replace_orders`. -/
structure ReplaceEnv where
  open_orders : Option (List String)
  get_order : String → Option (String × ℚ)
  cancel_ok : String → Bool
  buy_yes_resp : Option String
  buy_no_resp : Option String
  sell_yes_resp : Option String
  sell_no_resp : Option String
  is_peak : Bool

/-- The fill-detection phase of `replace_orders`: any tracked BUY missing
from the live open-order set past the grace period is verified via its
definitive status and, if MATCHED or UNKNOWN, booked into inventory. -/
def replace_fill_detect (position : MarketPosition) (env : ReplaceEnv)
    (new_midpoint now : ℚ) : MarketPosition :=
  match env.open_orders with
  | none => position
  | some live_ids =>
    position.orders.foldl (fun pos order =>
      if order.order_id ∉ live_ids ∧
          ORDER_GRACE_PERIOD_SECONDS ≤ now - order.placed_at ∧
          order.side = Side.buy then
        let status := get_order_status (env.get_order order.order_id)
        if status ≠ "MATCHED" ∧ status ≠ "UNKNOWN" then pos
        else if order.token_id = pos.token_id_yes then
          { pos with yes_inventory := pos.yes_inventory + order.size,
                     yes_entry_price := new_midpoint }
        else
          { pos with no_inventory := pos.no_inventory + order.size,
                     no_entry_price := new_midpoint }
      else pos) position

/-- The re-quote phase of `replace_orders`, entered after the market's
orders have been cancelled: compute the new BUY prices, re-place BUYs
subject to inventory, cooldown, block flags and the global pause, then
re-place unwind SELLs for held inventory. -/
def replace_requote_go (st : OMState) (condition_id : String)
    (new_midpoint : ℚ) (position : MarketPosition) (env : ReplaceEnv)
    (now : ℚ) (prices : ℚ × ℚ) :
    OMState × Option MarketPosition × List OrderRequest :=
  let yes_inv := position.yes_inventory
  let no_inv := position.no_inventory
  let yes_entry := position.yes_entry_price
  let no_entry := position.no_entry_price
  let new_position : MarketPosition :=
    { condition_id := condition_id,
      token_id_yes := position.token_id_yes,
      token_id_no := position.token_id_no,
      max_spread := position.max_spread, min_size := position.min_size,
      tick_size := position.tick_size, last_midpoint := new_midpoint,
      yes_inventory := yes_inv, no_inventory := no_inv,
      yes_entry_price := yes_entry, no_entry_price := no_entry,
      yes_fill_times := position.yes_fill_times,
      no_fill_times := position.no_fill_times,
      yes_last_sell_fill := position.yes_last_sell_fill,
      no_last_sell_fill := position.no_last_sell_fill,
      yes_blocked := position.yes_blocked,
      no_blocked := position.no_blocked }
  let global_paused := is_global_paused st now
  let yes_in_cooldown := global_paused || position.yes_blocked ||
    (decide (0 < position.yes_last_sell_fill) &&
     decide (now - position.yes_last_sell_fill < FILL_COOLDOWN_SECONDS))
  let no_in_cooldown := global_paused || position.no_blocked ||
    (decide (0 < position.no_last_sell_fill) &&
     decide (now - position.no_last_sell_fill < FILL_COOLDOWN_SECONDS))
  let buy_size := position.min_size * get_size_multiplier env.is_peak
  let step1 : MarketPosition × List OrderRequest :=
    if yes_inv = 0 ∧ yes_in_cooldown = false then
      let por := place_order st position.token_id_yes prices.1 buy_size
        Side.buy condition_id new_midpoint now 0 env.buy_yes_resp
      (match por.1 with
       | some od => (track_order new_position od).1
       | none => new_position, [por.2])
    else (new_position, ([] : List OrderRequest))
  let step2 : MarketPosition × List OrderRequest :=
    if no_inv = 0 ∧ no_in_cooldown = false then
      let por := place_order st position.token_id_no prices.2 buy_size
        Side.buy condition_id new_midpoint now 0 env.buy_no_resp
      (match por.1 with
       | some od => (track_order step1.1 od).1
       | none => step1.1, step1.2 ++ [por.2])
    else step1
  let step3 : MarketPosition × List OrderRequest :=
    if 0 < yes_inv then
      let sell_yes_price :=
        calculate_sell_price new_midpoint position.max_spread position.tick_size true
      let por := place_order st position.token_id_yes sell_yes_price yes_inv
        Side.sell condition_id new_midpoint now position.min_size env.sell_yes_resp
      (match por.1 with
       | some od => (track_order step2.1 od).1
       | none => step2.1, step2.2 ++ [por.2])
    else step2
  let step4 : MarketPosition × List OrderRequest :=
    if 0 < no_inv then
      let sell_no_price :=
        calculate_sell_price new_midpoint position.max_spread position.tick_size false
      let por := place_order st position.token_id_no sell_no_price no_inv
        Side.sell condition_id new_midpoint now position.min_size env.sell_no_resp
      (match por.1 with
       | some od => (track_order step3.1 od).1
       | none => step3.1, step3.2 ++ [por.2])
    else step3
  let new_position := step4.1
  let trace := step4.2
  if new_position.orders ≠ [] then
    (st.setPositions (ainsert st.positions condition_id new_position),
     some new_position, trace)
  else (st, some new_position, trace)

/-- The re-quote phase of `replace_orders`: sanity-check the freshly
computed BUY prices against the midpoints, bail out if either is not
strictly below its side midpoint, otherwise re-place the market's
orders. -/
def replace_requote (st : OMState) (condition_id : String)
    (new_midpoint : ℚ) (position : MarketPosition) (env : ReplaceEnv)
    (now : ℚ) : OMState × Option MarketPosition × List OrderRequest :=
  let prices :=
    calculate_order_prices new_midpoint position.max_spread position.tick_size
  let no_midpoint := 1 - new_midpoint
  if new_midpoint ≤ prices.1 ∨ no_midpoint ≤ prices.2 then (st, none, [])
  else replace_requote_go st condition_id new_midpoint position env now prices


/-- `OrderManager.replace_orders`: verify vanished BUYs against their
definitive status, cancel the market's orders, then re-quote at the new
midpoint subject to inventory, cooldown and the global pause. -/
def replace_orders (st : OMState) (condition_id : String) (new_midpoint : ℚ)
    (env : ReplaceEnv) (now : ℚ) :
    OMState × Option MarketPosition × List OrderRequest :=
  match alookup st.positions condition_id with
  | none => (st, none, [])
  | some position =>
    let position := replace_fill_detect position env new_midpoint now
    let st := st.setPositions (ainsert st.positions condition_id position)
    let st := (cancel_market_orders st condition_id env.cancel_ok).1
    replace_requote st condition_id new_midpoint position env now

/-- Environment for `process_cooldown_reentries`. -/
structure ReentryEnv where
  mid : String → Option ℚ
  buy_resp : String → Option String
  is_peak : Bool

/-- The body of `process_cooldown_reentries` for one side of one position.
The midpoint is fetched lazily: `mid_cache` carries the value once it has
been fetched for this position. -/
def reentry_side (st : OMState) (cid : String) (pos : MarketPosition)
    (is_yes : Bool) (mid_cache : Option ℚ) (env : ReentryEnv) (now : ℚ) :
    MarketPosition × Option ℚ × OMState × List OrderRequest :=
  let token_id := if is_yes then pos.token_id_yes else pos.token_id_no
  let last_sell := if is_yes then pos.yes_last_sell_fill else pos.no_last_sell_fill
  if last_sell = 0 then (pos, mid_cache, st, [])
  else if (if is_yes then pos.yes_blocked else pos.no_blocked) then
    (pos, mid_cache, st, [])
  else if 0 < (if is_yes then pos.yes_inventory else pos.no_inventory) then
    (pos, mid_cache, st, [])
  else if now - last_sell < FILL_COOLDOWN_SECONDS then (pos, mid_cache, st, [])
  else if pos.orders.any (fun o => o.side = Side.buy ∧ o.token_id = token_id) then
    (pos, mid_cache, st, [])
  else
    let mid := match mid_cache with
      | some m => m
      | none => (env.mid pos.token_id_yes).getD pos.last_midpoint
    let prices := calculate_order_prices mid pos.max_spread pos.tick_size
    let buy_price := if is_yes then prices.1 else prices.2
    let reentry_size := pos.min_size * get_size_multiplier env.is_peak
    let por := place_order st token_id buy_price reentry_size Side.buy
      cid mid now 0 (env.buy_resp token_id)
    match por.1 with
    | some od =>
      let pos := (track_order pos od).1
      let pos := if is_yes then { pos with yes_last_sell_fill := 0 }
        else { pos with no_last_sell_fill := 0 }
      (pos, some mid, st, [por.2])
    | none => (pos, some mid, st, [por.2])

/-- The body of `process_cooldown_reentries` for one position. -/
def reentry_body (env : ReentryEnv) (now : ℚ)
    (acc : OMState × List OrderRequest) (item : String × MarketPosition) :
    OMState × List OrderRequest :=
  let (st, trace) := acc
  let (cid, pos0) := item
  let blr := is_blacklisted st cid now
  let st := blr.2
  if blr.1 then (st, trace)
  else
    let r1 := reentry_side st cid pos0 true none env now
    let r2 := reentry_side r1.2.2.1 cid r1.1 false r1.2.1 env now
    (r2.2.2.1.setPositions (ainsert r2.2.2.1.positions cid r2.1),
     trace ++ r1.2.2.2 ++ r2.2.2.2)

/-- `OrderManager.process_cooldown_reentries`. -/
def process_cooldown_reentries (st : OMState) (env : ReentryEnv) (now : ℚ) :
    OMState × List OrderRequest :=
  if is_global_paused st now then (st, [])
  else st.positions.foldl (reentry_body env now) (st, [])

/-! ### Startup / sweep recovery SELLs (`bot.py::_place_recovery_sell`) -/

/-- How the exchange interaction of one recovery SELL went. -/
inductive RecoveryOutcome where
  | ok
  | deadMarket
  | failed
deriving DecidableEq, Repr

/-- Environment for `_place_recovery_sell`: midpoint and tick from the
price endpoints, the book's minimum order size, the posted order's id (if
the response carried one) and the overall outcome of the `try` block. -/
structure RecoveryEnv where
  mid : ℚ
  tick : ℚ
  min_order_size : ℚ
  post_resp : Option String
  outcome : RecoveryOutcome

/-- The bot-level recovery bookkeeping mutated by `_place_recovery_sell`. -/
structure RecoveryState where
  recovered_token_ids : List String := []
  recovered_order_ids : List String := []
  recovery_info : List (String × (ℚ × Option String × ℚ)) := []
deriving DecidableEq, Repr

/-- `bot.py::_place_recovery_sell`.  The SELL is submitted directly
(GTC, or FOK with the same price and amount when the size is below the
book's minimum): no sanity checks guard this submission.  The recovery
orders carry no condition id; the trace records an empty one.  On a dead
market (404 / "No orderbook") the shares are written off; on any other
failure the token is still recorded for recovery retry. -/
def place_recovery_sell (rs : RecoveryState) (token_id : String) (size : ℚ)
    (env : RecoveryEnv) : RecoveryState × List OrderRequest :=
  match env.outcome with
  | RecoveryOutcome.deadMarket => (rs, [])
  | RecoveryOutcome.failed =>
    ({ rs with recovered_token_ids := listInsert rs.recovered_token_ids token_id,
               recovery_info := ainsert rs.recovery_info token_id (size, none, 0) }, [])
  | RecoveryOutcome.ok =>
    let sell_price := clamp_price (round_price_down env.mid env.tick) env.tick
    let req : OrderRequest := ⟨token_id, sell_price, size, Side.sell, "", true⟩
    let rs := match env.post_resp with
      | some oid => { rs with recovered_order_ids := listInsert rs.recovered_order_ids oid }
      | none => rs
    ({ rs with recovered_token_ids := listInsert rs.recovered_token_ids token_id,
               recovery_info := ainsert rs.recovery_info token_id
                 (size, env.post_resp, sell_price) }, [req])

/-! ### Spec-level predicates and the fill-event process -/

/-- Number of tracked SELL orders for one token id. -/
def countSellsFor (orders : List ActiveOrder) (token : String) : ℕ :=
  orders.countP (fun o => decide (o.side = Side.sell ∧ o.token_id = token))

/-- Spec predicate: at most one resting SELL per token id. -/
def atMostOneSell (orders : List ActiveOrder) : Prop :=
  ∀ token, countSellsFor orders token ≤ 1

/-- Spec predicate over the ledger: every tracked position has at most one
SELL per token id. -/
def ledgerAtMostOneSell (st : OMState) : Prop :=
  ∀ cid pos, (cid, pos) ∈ st.positions → atMostOneSell pos.orders

/-- One fill-path event: a REST sync batch handed to
`handle_filled_orders`, or one streamed trade handed to
`handle_ws_fill`. -/
inductive FillPathEvent where
  | rest (fills : List FillEvent) (env : ℕ → FillKeyEnv) (now : ℚ)
  | ws (order_id asset_id side_field : String) (size_matched price : ℚ)
      (env : WsEnv) (now : ℚ)

/-- Apply one fill-path event to the Order Manager state. -/
def applyFillPathEvent (st : OMState) (e : FillPathEvent) : OMState :=
  match e with
  | FillPathEvent.rest fills env now => (handle_filled_orders st fills env now).1
  | FillPathEvent.ws oid aid sf sm price env now =>
    (handle_ws_fill st oid aid sf sm price env now).1

/-! ## Theorems -/

/-! ### Projection lemmas for the state-update helpers -/

@[simp] theorem setPositions_positions (st : OMState) (ps) :
    (st.setPositions ps).positions = ps := rfl

@[simp] theorem setPositions_counts (st : OMState) (ps) :
    (st.setPositions ps).sell_fail_counts = st.sell_fail_counts := rfl

@[simp] theorem setPositions_phantoms (st : OMState) (ps) :
    (st.setPositions ps).phantom_tokens = st.phantom_tokens := rfl

@[simp] theorem setPositions_lgf (st : OMState) (ps) :
    (st.setPositions ps).last_global_fill = st.last_global_fill := rfl

@[simp] theorem setPositions_blacklist (st : OMState) (ps) :
    (st.setPositions ps).market_blacklist = st.market_blacklist := rfl

@[simp] theorem setCounts_positions (st : OMState) (c) :
    (st.setCounts c).positions = st.positions := rfl

@[simp] theorem setCounts_counts (st : OMState) (c) :
    (st.setCounts c).sell_fail_counts = c := rfl

@[simp] theorem setCounts_phantoms (st : OMState) (c) :
    (st.setCounts c).phantom_tokens = st.phantom_tokens := rfl

@[simp] theorem setCounts_lgf (st : OMState) (c) :
    (st.setCounts c).last_global_fill = st.last_global_fill := rfl

@[simp] theorem setCounts_blacklist (st : OMState) (c) :
    (st.setCounts c).market_blacklist = st.market_blacklist := rfl

@[simp] theorem setPhantoms_positions (st : OMState) (p) :
    (st.setPhantoms p).positions = st.positions := rfl

@[simp] theorem setPhantoms_counts (st : OMState) (p) :
    (st.setPhantoms p).sell_fail_counts = st.sell_fail_counts := rfl

@[simp] theorem setPhantoms_phantoms (st : OMState) (p) :
    (st.setPhantoms p).phantom_tokens = p := rfl

@[simp] theorem setPhantoms_lgf (st : OMState) (p) :
    (st.setPhantoms p).last_global_fill = st.last_global_fill := rfl

@[simp] theorem setPhantoms_blacklist (st : OMState) (p) :
    (st.setPhantoms p).market_blacklist = st.market_blacklist := rfl

@[simp] theorem setLastGlobalFill_positions (st : OMState) (t) :
    (st.setLastGlobalFill t).positions = st.positions := rfl

@[simp] theorem setLastGlobalFill_counts (st : OMState) (t) :
    (st.setLastGlobalFill t).sell_fail_counts = st.sell_fail_counts := rfl

@[simp] theorem setLastGlobalFill_phantoms (st : OMState) (t) :
    (st.setLastGlobalFill t).phantom_tokens = st.phantom_tokens := rfl

@[simp] theorem setLastGlobalFill_lgf (st : OMState) (t) :
    (st.setLastGlobalFill t).last_global_fill = t := rfl

@[simp] theorem setLastGlobalFill_blacklist (st : OMState) (t) :
    (st.setLastGlobalFill t).market_blacklist = st.market_blacklist := rfl

@[simp] theorem setBlacklist_positions (st : OMState) (b) :
    (st.setBlacklist b).positions = st.positions := rfl

@[simp] theorem setBlacklist_counts (st : OMState) (b) :
    (st.setBlacklist b).sell_fail_counts = st.sell_fail_counts := rfl

@[simp] theorem setBlacklist_phantoms (st : OMState) (b) :
    (st.setBlacklist b).phantom_tokens = st.phantom_tokens := rfl

@[simp] theorem setBlacklist_lgf (st : OMState) (b) :
    (st.setBlacklist b).last_global_fill = st.last_global_fill := rfl

@[simp] theorem setBlacklist_blacklist (st : OMState) (b) :
    (st.setBlacklist b).market_blacklist = b := rfl

@[simp] theorem cancel_all_buys_counts (st : OMState) :
    (cancel_all_buys st).sell_fail_counts = st.sell_fail_counts := rfl

@[simp] theorem cancel_all_buys_phantoms (st : OMState) :
    (cancel_all_buys st).phantom_tokens = st.phantom_tokens := rfl

@[simp] theorem cancel_all_buys_lgf (st : OMState) :
    (cancel_all_buys st).last_global_fill = st.last_global_fill := rfl

@[simp] theorem cancel_all_buys_blacklist (st : OMState) :
    (cancel_all_buys st).market_blacklist = st.market_blacklist := rfl

theorem wbc_counts (st : OMState) (cid : String) (p : MarketPosition) :
    (write_back_cleanup st cid p).sell_fail_counts = st.sell_fail_counts := by
  unfold write_back_cleanup
  split <;> rfl

theorem wbc_phantoms (st : OMState) (cid : String) (p : MarketPosition) :
    (write_back_cleanup st cid p).phantom_tokens = st.phantom_tokens := by
  unfold write_back_cleanup
  split <;> rfl

theorem wbc_lgf (st : OMState) (cid : String) (p : MarketPosition) :
    (write_back_cleanup st cid p).last_global_fill = st.last_global_fill := by
  unfold write_back_cleanup
  split <;> rfl

theorem wbc_blacklist (st : OMState) (cid : String) (p : MarketPosition) :
    (write_back_cleanup st cid p).market_blacklist = st.market_blacklist := by
  unfold write_back_cleanup
  split <;> rfl

/-! ### Arithmetic facts about `pyRound` and the decimal grid -/

theorem rhe_intCast (k : ℤ) : rhe (k : ℚ) = k := by
  simp [rhe]

theorem pyRound_eq_self {x : ℚ} {n : ℕ} (h : onGrid n x) : pyRound x n = x := by
  obtain ⟨k, rfl⟩ := h
  have h10 : ((10 : ℚ) ^ n) ≠ 0 := by positivity
  rw [pyRound, div_mul_cancel₀ _ h10, rhe_intCast]

theorem tenpow_split {a b : ℕ} (h : a ≤ b) :
    (10 : ℚ) ^ (b - a) * 10 ^ a = 10 ^ b := by
  rw [← pow_add, Nat.sub_add_cancel h]

theorem onGrid_of_le {m n : ℕ} {x : ℚ} (h : m ≤ n) (hx : onGrid m x) :
    onGrid n x := by
  obtain ⟨k, rfl⟩ := hx
  refine ⟨k * 10 ^ (n - m), ?_⟩
  push_cast
  rw [div_eq_div_iff (by positivity) (by positivity), mul_assoc,
    mul_comm ((10 : ℚ) ^ (n - m)) _, mul_comm ((10 : ℚ) ^ m) _, tenpow_split h]

theorem onGrid_sub {n : ℕ} {x y : ℚ} (hx : onGrid n x) (hy : onGrid n y) :
    onGrid n (x - y) := by
  obtain ⟨k, rfl⟩ := hx
  obtain ⟨l, rfl⟩ := hy
  exact ⟨k - l, by push_cast; ring⟩

theorem onGrid_add {n : ℕ} {x y : ℚ} (hx : onGrid n x) (hy : onGrid n y) :
    onGrid n (x + y) := by
  obtain ⟨k, rfl⟩ := hx
  obtain ⟨l, rfl⟩ := hy
  exact ⟨k + l, by push_cast; ring⟩

theorem onGrid_max {n : ℕ} {x y : ℚ} (hx : onGrid n x) (hy : onGrid n y) :
    onGrid n (max x y) := by
  rcases le_total x y with h | h
  · rw [max_eq_right h]; exact hy
  · rw [max_eq_left h]; exact hx

theorem onGrid_min {n : ℕ} {x y : ℚ} (hx : onGrid n x) (hy : onGrid n y) :
    onGrid n (min x y) := by
  rcases le_total x y with h | h
  · rw [min_eq_left h]; exact hx
  · rw [min_eq_right h]; exact hy

theorem onGrid_one {n : ℕ} : onGrid n (1 : ℚ) := by
  refine ⟨10 ^ n, ?_⟩
  push_cast
  rw [div_self (by positivity : ((10 : ℚ) ^ n) ≠ 0)]

theorem onGrid_tick {e : ℕ} (he6 : e ≤ 6) : onGrid 6 (1 / 10 ^ e : ℚ) := by
  refine ⟨10 ^ (6 - e), ?_⟩
  push_cast
  rw [div_eq_div_iff (by positivity) (by positivity), one_mul, tenpow_split he6]

theorem onGrid_intMul_tick {e : ℕ} (he6 : e ≤ 6) (k : ℤ) :
    onGrid 6 ((k : ℚ) * (1 / 10 ^ e)) := by
  refine ⟨k * 10 ^ (6 - e), ?_⟩
  push_cast
  rw [mul_one_div, div_eq_div_iff (by positivity) (by positivity),
    mul_assoc, tenpow_split he6]

theorem onGrid8_div_tick {x : ℚ} {e : ℕ} (hx : onGrid 7 x) :
    onGrid 8 (x / (1 / 10 ^ e)) := by
  obtain ⟨k, rfl⟩ := hx
  refine ⟨k * 10 ^ (e + 1), ?_⟩
  rw [div_div_eq_mul_div, div_one]
  push_cast
  rw [div_mul_eq_mul_div, div_eq_div_iff (by positivity) (by positivity)]
  rw [mul_assoc, mul_assoc]
  congr 1
  rw [← pow_add, ← pow_add]

theorem round_price_down_eq {x t : ℚ} {e : ℕ} (he6 : e ≤ 6)
    (ht : t = 1 / 10 ^ e) (hx : onGrid 7 x) :
    round_price_down x t = (⌊x / t⌋ : ℚ) * t := by
  subst ht
  have h1 : pyRound (x / (1 / 10 ^ e)) 8 = x / (1 / 10 ^ e) :=
    pyRound_eq_self (onGrid8_div_tick hx)
  rw [round_price_down, h1,
    pyRound_eq_self (onGrid_of_le (by norm_num) (onGrid_intMul_tick he6 _))]

theorem onGrid7_spread_buffer {ms : ℚ} (hms : onGrid 6 ms) :
    onGrid 7 (ms * SPREAD_BUFFER_FRACTION) := by
  obtain ⟨k, rfl⟩ := hms
  refine ⟨k * 4, ?_⟩
  rw [SPREAD_BUFFER_FRACTION]
  push_cast
  field_simp
  ring

theorem onGrid7_buffer {ms t : ℚ} {e : ℕ} (he6 : e ≤ 6) (ht : t = 1 / 10 ^ e)
    (hms : onGrid 6 ms) : onGrid 7 (compute_buffer ms t) := by
  refine onGrid_max (onGrid_max (onGrid7_spread_buffer hms) ?_) ?_
  · exact ⟨20000, by rw [MIN_SPREAD_BUFFER]; norm_num⟩
  · exact onGrid_of_le (show (6 : ℕ) ≤ 7 by norm_num)
      (by rw [ht]; exact onGrid_tick he6)

theorem buy_price_one_ge_tick (m ms t : ℚ) : t ≤ buy_price_one m ms t := by
  unfold buy_price_one
  dsimp only
  split
  · exact le_max_left _ _
  · exact le_max_left _ _

theorem tick_le_tenth {t : ℚ} {e : ℕ} (he1 : 1 ≤ e) (ht : t = 1 / 10 ^ e) :
    t ≤ 1 / 10 := by
  subst ht
  have h10e : (10 : ℚ) ≤ 10 ^ e := by
    calc (10 : ℚ) = 10 ^ 1 := (pow_one _).symm
    _ ≤ 10 ^ e := pow_le_pow_right (by norm_num) he1
  rw [div_le_div_iff (by positivity) (by norm_num)]
  linarith

theorem buy_price_one_cases (m ms t : ℚ) (e : ℕ) (he1 : 1 ≤ e) (he6 : e ≤ 6)
    (ht : t = 1 / 10 ^ e) (hm : onGrid 6 m) (hms : onGrid 6 ms) :
    m - buy_price_one m ms t < ms ∨ 1 - t + ms ≤ m := by
  have ht0 : 0 < t := by rw [ht]; positivity
  have htq : t ≤ 1 / 10 := tick_le_tenth he1 ht
  have hbuf_t : t ≤ compute_buffer ms t := le_max_right _ _
  set B := compute_buffer ms t with hB
  set x := m - (ms - B) with hx
  have hx7 : onGrid 7 x :=
    onGrid_sub (onGrid_of_le (by norm_num) hm)
      (onGrid_sub (onGrid_of_le (by norm_num) hms) (onGrid7_buffer he6 ht hms))
  have hrpd : round_price_down x t = (⌊x / t⌋ : ℚ) * t :=
    round_price_down_eq he6 ht hx7
  set f : ℚ := (⌊x / t⌋ : ℚ) * t with hf
  have hf6 : onGrid 6 f := by rw [hf, ht]; exact onGrid_intMul_tick he6 _
  have hf_le : f ≤ x := by
    have h1 : (⌊x / t⌋ : ℚ) ≤ x / t := Int.floor_le _
    calc f ≤ (x / t) * t := mul_le_mul_of_nonneg_right h1 ht0.le
    _ = x := div_mul_cancel₀ _ (ne_of_gt ht0)
  have hf_gt : x - t < f := by
    have h1 : x / t < (⌊x / t⌋ : ℚ) + 1 := Int.lt_floor_add_one _
    have h2 : (x / t) * t < ((⌊x / t⌋ : ℚ) + 1) * t :=
      mul_lt_mul_of_pos_right h1 ht0
    rw [div_mul_cancel₀ _ (ne_of_gt ht0), add_mul, one_mul] at h2
    linarith
  set p0 := clamp_price f t with hp0def
  have ht6 : onGrid 6 t := by rw [ht]; exact onGrid_tick he6
  have hp06 : onGrid 6 p0 := by
    rw [hp0def, clamp_price]
    exact onGrid_max ht6 (onGrid_min hf6 (onGrid_sub onGrid_one ht6))
  have hpy : pyRound (m - p0) 8 = m - p0 := by
    apply pyRound_eq_self
    exact onGrid_of_le (show (6 : ℕ) ≤ 8 by norm_num) (onGrid_sub hm hp06)
  have hbp : buy_price_one m ms t =
      (if ms ≤ m - p0 then clamp_price (p0 + t) t else p0) := by
    simp only [buy_price_one]
    rw [← hB, ← hx, hrpd, ← hp0def, hpy]
  by_cases hc : ms ≤ m - p0
  · -- the post-rounding fix fired: the base price hit the upper clamp
    have hfu : 1 - t < f := by
      by_contra hfu
      push_neg at hfu
      have hp0v : p0 = max t f := by
        rw [hp0def, clamp_price, min_eq_left hfu]
      rcases le_total t f with h | h
      · rw [hp0v, max_eq_right h] at hc
        -- m - f < t + (ms - B) ≤ ms since t ≤ B
        have : m - f < ms := by
          have h1 : x - f < t := by linarith
          have h2 : m - f = (x - f) + (ms - B) := by rw [hx]; ring
          linarith
        linarith
      · rw [hp0v, max_eq_left h] at hc
        -- f ≤ t forces the floor to be at most 1, hence x < 2 t
        have hfl1 : (⌊x / t⌋ : ℚ) ≤ 1 := by
          have h4 : (⌊x / t⌋ : ℚ) * t ≤ 1 * t := by
            rw [one_mul]
            rw [hf] at h
            exact h
          exact le_of_mul_le_mul_right h4 ht0
        have hx2 : x < 2 * t := by
          have h1 : x / t < (⌊x / t⌋ : ℚ) + 1 := Int.lt_floor_add_one _
          have h2 : (x / t) * t < ((⌊x / t⌋ : ℚ) + 1) * t :=
            mul_lt_mul_of_pos_right h1 ht0
          rw [div_mul_cancel₀ _ (ne_of_gt ht0)] at h2
          nlinarith
        -- m - t = x + (ms - B) - t < t + ms - B ≤ ms since t ≤ B
        have h5 : m - t < ms := by
          have h2 : m = x + (ms - B) := by rw [hx]; ring
          linarith
        linarith
    have hp0v : p0 = 1 - t := by
      have h1t : t ≤ 1 - t := by linarith
      rw [hp0def, clamp_price, min_eq_right hfu.le, max_eq_right h1t]
    right
    rw [hp0v] at hc
    linarith
  · left
    rw [hbp, if_neg hc]
    linarith [not_le.mp hc]

theorem sell_one_eq (m t : ℚ) (e : ℕ) (he6 : e ≤ 6) (ht : t = 1 / 10 ^ e)
    (hm : onGrid 6 m) (hlo : t < m) (hhi : m < 1 - t) :
    clamp_price (round_price_down m t) t = (⌊m / t⌋ : ℚ) * t ∧
      (⌊m / t⌋ : ℚ) * t ≤ m := by
  have ht0 : 0 < t := by rw [ht]; positivity
  have hrpd : round_price_down m t = (⌊m / t⌋ : ℚ) * t :=
    round_price_down_eq he6 ht (onGrid_of_le (by norm_num) hm)
  set g : ℚ := (⌊m / t⌋ : ℚ) * t with hg
  have hg_le : g ≤ m := by
    have h1 : (⌊m / t⌋ : ℚ) ≤ m / t := Int.floor_le _
    calc g ≤ (m / t) * t := mul_le_mul_of_nonneg_right h1 ht0.le
    _ = m := div_mul_cancel₀ _ (ne_of_gt ht0)
  have hg_ge : t ≤ g := by
    have h1 : (1 : ℚ) ≤ m / t := by
      rw [le_div_iff ht0]
      linarith
    have h2 : (1 : ℤ) ≤ ⌊m / t⌋ := by
      rw [Int.le_floor]
      exact_mod_cast h1
    have h3 : (1 : ℚ) ≤ (⌊m / t⌋ : ℚ) := by exact_mod_cast h2
    calc t = 1 * t := (one_mul t).symm
    _ ≤ g := mul_le_mul_of_nonneg_right h3 ht0.le
  constructor
  · rw [hrpd]
    unfold clamp_price
    rw [min_eq_left (by linarith), max_eq_right hg_ge]
  · exact hg_le

/-- C1: for every midpoint and positive `max_spread` on the exchange's
decimal price grid and every power-of-ten tick size that the program
accepts as valid (its sanity check: each computed BUY price strictly below
its side's midpoint), the BUY YES price computed by
`calculate_order_prices` satisfies `0 < price < midpoint` and
`midpoint - price < max_spread`; the BUY NO price satisfies the same
bounds against `1 - midpoint`; and the SELL prices computed by
`_calculate_sell_price` are integer multiples of the tick size at or
below `midpoint` (YES) resp. `1 - midpoint` (NO). -/
theorem c1_pricing_laws (m ms t : ℚ) (e : ℕ)
    (he1 : 1 ≤ e) (he6 : e ≤ 6) (ht : t = 1 / 10 ^ e)
    (hm6 : onGrid 6 m) (hms6 : onGrid 6 ms)
    (hm0 : 0 < m) (hm1 : m < 1) (hms0 : 0 < ms)
    (hvy : (calculate_order_prices m ms t).1 < m)
    (hvn : (calculate_order_prices m ms t).2 < 1 - m) :
    (0 < (calculate_order_prices m ms t).1 ∧
      m - (calculate_order_prices m ms t).1 < ms) ∧
    (0 < (calculate_order_prices m ms t).2 ∧
      (1 - m) - (calculate_order_prices m ms t).2 < ms) ∧
    (calculate_sell_price m ms t true ≤ m ∧
      ∃ k : ℤ, calculate_sell_price m ms t true = (k : ℚ) * t) ∧
    (calculate_sell_price m ms t false ≤ 1 - m ∧
      ∃ k : ℤ, calculate_sell_price m ms t false = (k : ℚ) * t) := by
  have ht0 : 0 < t := by rw [ht]; positivity
  have h1 : (calculate_order_prices m ms t).1 = buy_price_one m ms t := rfl
  have h2 : (calculate_order_prices m ms t).2 = buy_price_one (1 - m) ms t := rfl
  have hyes_ge : t ≤ buy_price_one m ms t := buy_price_one_ge_tick m ms t
  have hno_ge : t ≤ buy_price_one (1 - m) ms t := buy_price_one_ge_tick (1 - m) ms t
  rw [h1] at hvy
  rw [h2] at hvn
  have h1m6 : onGrid 6 (1 - m) := onGrid_sub onGrid_one hm6
  have hyes_window : m - buy_price_one m ms t < ms := by
    rcases buy_price_one_cases m ms t e he1 he6 ht hm6 hms6 with h | h
    · exact h
    · exfalso
      linarith
  have hno_window : (1 - m) - buy_price_one (1 - m) ms t < ms := by
    rcases buy_price_one_cases (1 - m) ms t e he1 he6 ht h1m6 hms6 with h | h
    · exact h
    · exfalso
      linarith
  have htm : t < m := lt_of_le_of_lt hyes_ge hvy
  have hmt : m < 1 - t := by
    have h3 : t < 1 - m := lt_of_le_of_lt hno_ge hvn
    linarith
  have hsy := sell_one_eq m t e he6 ht hm6 htm hmt
  have hsn := sell_one_eq (1 - m) t e he6 ht h1m6 (by linarith) (by linarith)
  have hs1 : calculate_sell_price m ms t true = clamp_price (round_price_down m t) t := rfl
  have hs2 : calculate_sell_price m ms t false =
      clamp_price (round_price_down (1 - m) t) t := rfl
  refine ⟨⟨lt_of_lt_of_le ht0 (h1 ▸ hyes_ge), by rw [h1]; exact hyes_window⟩,
    ⟨lt_of_lt_of_le ht0 (h2 ▸ hno_ge), by rw [h2]; exact hno_window⟩,
    ⟨?_, ⟨⌊m / t⌋, ?_⟩⟩, ⟨?_, ⟨⌊(1 - m) / t⌋, ?_⟩⟩⟩
  · rw [hs1, hsy.1]
    exact hsy.2
  · rw [hs1, hsy.1]
  · rw [hs2, hsn.1]
    exact hsn.2
  · rw [hs2, hsn.1]

/-- Witness for C1 at the spec's own worked example: `midpoint = 0.50`,
`max_spread = 0.03`, `tick = 0.01` (both BUY prices come out at 0.48). -/
theorem c1_pricing_laws_witness :
    ((calculate_order_prices (1/2) (3/100) (1/100)).1 < 1/2 ∧
     (calculate_order_prices (1/2) (3/100) (1/100)).2 < 1 - 1/2) ∧
    ((0 < (calculate_order_prices (1/2) (3/100) (1/100)).1 ∧
      (1/2 : ℚ) - (calculate_order_prices (1/2) (3/100) (1/100)).1 < 3/100) ∧
     (0 < (calculate_order_prices (1/2) (3/100) (1/100)).2 ∧
      (1 - 1/2 : ℚ) - (calculate_order_prices (1/2) (3/100) (1/100)).2 < 3/100) ∧
     (calculate_sell_price (1/2) (3/100) (1/100) true ≤ 1/2 ∧
      ∃ k : ℤ, calculate_sell_price (1/2) (3/100) (1/100) true = (k : ℚ) * (1/100)) ∧
     (calculate_sell_price (1/2) (3/100) (1/100) false ≤ 1 - 1/2 ∧
      ∃ k : ℤ, calculate_sell_price (1/2) (3/100) (1/100) false = (k : ℚ) * (1/100))) := by
  have hvy : (calculate_order_prices (1/2) (3/100) (1/100)).1 < 1/2 := by
    norm_num [calculate_order_prices, buy_price_one, compute_buffer, round_price_down,
      clamp_price, pyRound, rhe, SPREAD_BUFFER_FRACTION, MIN_SPREAD_BUFFER]
  have hvn : (calculate_order_prices (1/2) (3/100) (1/100)).2 < 1 - 1/2 := by
    norm_num [calculate_order_prices, buy_price_one, compute_buffer, round_price_down,
      clamp_price, pyRound, rhe, SPREAD_BUFFER_FRACTION, MIN_SPREAD_BUFFER]
  exact ⟨⟨hvy, hvn⟩,
    c1_pricing_laws (1/2) (3/100) (1/100) 2 (by norm_num) (by norm_num) (by norm_num)
      ⟨500000, by norm_num⟩ ⟨30000, by norm_num⟩ (by norm_num) (by norm_num)
      (by norm_num) hvy hvn⟩

/-! ### Association-list lemmas -/

theorem alookup_ainsert {α β : Type} [DecidableEq α]
    (l : List (α × β)) (k : α) (v : β) : alookup (ainsert l k v) k = some v := by
  induction l with
  | nil => simp [ainsert, alookup]
  | cons hd tl ih =>
    by_cases h : hd.1 = k
    · simp [ainsert, alookup, h]
    · simp only [ainsert, alookup]
      rw [if_neg (by exact h), alookup, if_neg h]
      exact ih

theorem alookup_ainsert_ne {α β : Type} [DecidableEq α]
    (l : List (α × β)) (k a : α) (v : β) (h : k ≠ a) :
    alookup (ainsert l k v) a = alookup l a := by
  induction l with
  | nil => simp [ainsert, alookup, h]
  | cons hd tl ih =>
    by_cases h1 : hd.1 = k
    · simp only [ainsert, if_pos h1, alookup]
      rw [if_neg (h1 ▸ h), if_neg (h1 ▸ h)]
    · simp only [ainsert, if_neg h1, alookup]
      by_cases h2 : hd.1 = a
      · rw [if_pos h2, if_pos h2]
      · rw [if_neg h2, if_neg h2]
        exact ih

theorem alookup_aerase_ne {α β : Type} [DecidableEq α]
    (l : List (α × β)) (k a : α) (h : k ≠ a) :
    alookup (aerase l k) a = alookup l a := by
  induction l with
  | nil => simp [aerase, alookup]
  | cons hd tl ih =>
    by_cases h1 : hd.1 = k
    · simp only [aerase, if_pos h1, alookup]
      rw [if_neg (h1 ▸ h)]
    · simp only [aerase, if_neg h1, alookup]
      by_cases h2 : hd.1 = a
      · rw [if_pos h2, if_pos h2]
      · rw [if_neg h2, if_neg h2]
        exact ih

theorem alookup_map_snd {α β γ : Type} [DecidableEq α]
    (l : List (α × β)) (f : β → γ) (a : α) :
    alookup (l.map (fun p => (p.1, f p.2))) a = (alookup l a).map f := by
  induction l with
  | nil => simp [alookup]
  | cons hd tl ih =>
    by_cases h : hd.1 = a
    · simp [alookup, h]
    · simp only [List.map_cons, alookup, if_neg h]
      exact ih

theorem alookup_mem {α β : Type} [DecidableEq α]
    {l : List (α × β)} {a : α} {b : β} (h : alookup l a = some b) : (a, b) ∈ l := by
  induction l with
  | nil => simp [alookup] at h
  | cons hd tl ih =>
    by_cases h1 : hd.1 = a
    · rw [alookup, if_pos h1] at h
      have h2 : hd = (a, b) := by
        obtain ⟨x, y⟩ := hd
        simp only at h1
        simp only [Option.some_inj] at h
        simp [h1, h]
      rw [← h2]
      exact List.mem_cons_self _ _
    · rw [alookup, if_neg h1] at h
      exact List.mem_cons_of_mem _ (ih h)

theorem mem_ainsert {α β : Type} [DecidableEq α]
    {l : List (α × β)} {k : α} {v : β} {p : α × β} (h : p ∈ ainsert l k v) :
    p ∈ l ∨ p = (k, v) := by
  induction l with
  | nil => simp [ainsert] at h; right; exact h
  | cons hd tl ih =>
    by_cases h1 : hd.1 = k
    · rw [ainsert, if_pos h1] at h
      rcases List.mem_cons.mp h with h2 | h2
      · right
        rw [h2, h1]
      · left
        exact List.mem_cons_of_mem _ h2
    · rw [ainsert, if_neg h1] at h
      rcases List.mem_cons.mp h with h2 | h2
      · left
        exact h2 ▸ List.mem_cons_self _ _
      · rcases ih h2 with h3 | h3
        · left
          exact List.mem_cons_of_mem _ h3
        · right
          exact h3

theorem mem_aerase {α β : Type} [DecidableEq α]
    {l : List (α × β)} {k : α} {p : α × β} (h : p ∈ aerase l k) : p ∈ l := by
  induction l with
  | nil => simp [aerase] at h
  | cons hd tl ih =>
    by_cases h1 : hd.1 = k
    · rw [aerase, if_pos h1] at h
      exact List.mem_cons_of_mem _ h
    · rw [aerase, if_neg h1] at h
      rcases List.mem_cons.mp h with h2 | h2
      · exact h2 ▸ List.mem_cons_self _ _
      · exact List.mem_cons_of_mem _ (ih h2)

/-! ### C10: partially matched orders are classified as fills -/

/-- C10: `_get_order_status` returns MATCHED for any response whose
`size_matched` is positive, whatever the reported status string says — in
particular a CANCELLED or EXPIRED order with a partial match is treated as
a fill by the REST sync and drift-replace paths. -/
theorem c10_size_matched_forces_matched (status : String) (size_matched : ℚ)
    (h : 0 < size_matched) :
    classify_order_status status size_matched = "MATCHED" ∧
    get_order_status (some (status, size_matched)) = "MATCHED" := by
  have h1 : classify_order_status status size_matched = "MATCHED" := by
    unfold classify_order_status
    rw [if_pos (Or.inr h)]
  exact ⟨h1, h1⟩

/-- Witness for C10 at a CANCELLED order with 5 shares matched. -/
theorem c10_size_matched_forces_matched_witness :
    (0 : ℚ) < 5 ∧
    (classify_order_status "CANCELLED" 5 = "MATCHED" ∧
     get_order_status (some ("CANCELLED", 5)) = "MATCHED") :=
  ⟨by norm_num, c10_size_matched_forces_matched "CANCELLED" 5 (by norm_num)⟩

/-! ### C8: order-submission safety caps -/

/-- C8 counterexample: the recovery SELL path of `bot.py` submits an order
of 600 shares at price 0.50 (cost 300 USDC) to the exchange even though it
violates both `size ≤ MAX_ORDER_SIZE` (500) and
`price · size ≤ MAX_SINGLE_ORDER_USDC` (250): no cap check guards that
submission, refuting the claim that every submission is checked. -/
theorem c8_counterexample :
    (place_recovery_sell {} "tok1" 600
        ⟨1/2, 1/100, 0, some "oid1", RecoveryOutcome.ok⟩).2 =
      [⟨"tok1", 1/2, 600, Side.sell, "", true⟩] ∧
    MAX_ORDER_SIZE < 600 ∧ MAX_SINGLE_ORDER_USDC < (1/2 : ℚ) * 600 := by
  refine ⟨?_, by norm_num [MAX_ORDER_SIZE], by norm_num [MAX_SINGLE_ORDER_USDC]⟩
  norm_num [place_recovery_sell, clamp_price, round_price_down, pyRound, rhe]

/-- C8 (amended): every order submission that goes through
`OrderManager._place_order` — all Order Manager code paths — satisfies
`0 < price < 1`, `0 < size ≤ MAX_ORDER_SIZE` and
`price · size ≤ MAX_SINGLE_ORDER_USDC`; a violating request is rejected
before submission.  The recovery SELL path of `bot.py`
(`_place_recovery_sell`, used at startup and by the reconciliation and
hourly force-sell sweeps) bypasses these checks. -/
theorem c8_place_order_guard (st : OMState) (token_id : String)
    (price size : ℚ) (side : Side) (condition_id : String)
    (midpoint now min_order_size : ℚ) (resp : Option String)
    (h : (place_order st token_id price size side condition_id midpoint now
      min_order_size resp).2.submitted = true) :
    0 < price ∧ price < 1 ∧ 0 < size ∧ size ≤ MAX_ORDER_SIZE ∧
      price * size ≤ MAX_SINGLE_ORDER_USDC := by
  simp only [place_order] at h
  split_ifs at h with h1 h2 h3 h4
  all_goals
    first
    | (push_neg at h1 h2 h3
       exact ⟨h1.1, h1.2.1, h1.2.2, h2, h3⟩)
    | simp at h

/-- Witness for C8 (amended): a concrete in-bounds SELL goes through the
checks and is submitted. -/
theorem c8_place_order_guard_witness :
    (place_order {} "tok1" (1/2) 50 Side.sell "c1" (1/2) 0 0
      (some "oid1")).2.submitted = true ∧
    ((0 : ℚ) < 1/2 ∧ (1/2 : ℚ) < 1 ∧ (0 : ℚ) < 50 ∧ (50 : ℚ) ≤ MAX_ORDER_SIZE ∧
      (1/2 : ℚ) * 50 ≤ MAX_SINGLE_ORDER_USDC) := by
  have hsub : (place_order {} "tok1" (1/2) 50 Side.sell "c1" (1/2) 0 0
      (some "oid1")).2.submitted = true := by
    norm_num [place_order, alookup, MAX_ORDER_SIZE, MAX_SINGLE_ORDER_USDC]
  exact ⟨hsub, c8_place_order_guard {} "tok1" (1/2) 50 Side.sell "c1" (1/2) 0 0
    (some "oid1") hsub⟩

/-! ### C5, C6, C9: counterexamples on the REST fill path and cancel path -/

/-- C5 counterexample: a partial SELL fill (20 of 50 shares) processed by
`handle_filled_orders` leaves inventory 30, yet the code clears
`yes_entry_price` (0.48 becomes 0) and sets `yes_last_sell_fill`
unconditionally — the claim's "if and only if the resulting inventory is
0" fails on this path. -/
theorem c5_counterexample :
    alookup (handle_filled_orders
        { positions := [("c1",
            { condition_id := "c1", token_id_yes := "y1", token_id_no := "n1",
              max_spread := 3/100, min_size := 50, tick_size := 1/100,
              last_midpoint := 1/2, yes_inventory := 50,
              yes_entry_price := 12/25 })] }
        [⟨"y1", Side.sell, 1/2, 20, "c1"⟩] (fun _ => ⟨none, none⟩)
        1000).1.positions "c1" =
      some { condition_id := "c1", token_id_yes := "y1", token_id_no := "n1",
             max_spread := 3/100, min_size := 50, tick_size := 1/100,
             last_midpoint := 1/2, yes_inventory := 30, yes_entry_price := 0,
             yes_last_sell_fill := 1000 } ∧ (30 : ℚ) ≠ 0 := by
  refine ⟨?_, by norm_num⟩
  norm_num [handle_filled_orders, aggregate_fills, hfo_step, hfo_buy_branch,
    hfo_sell_branch, alookup, ainsert, cleanupPositions, posEmpty, List.enum,
    List.enumFrom, List.foldl, OMState.setPositions, OMState.setLastGlobalFill]

/-- C6 counterexample: a BUY fill processed by the REST path
`handle_filled_orders` updates inventory (0 becomes 50 shares) but adds
nothing to the market blacklist — only the WebSocket path blacklists. -/
theorem c6_counterexample :
    (handle_filled_orders
        { positions := [("c1",
            { condition_id := "c1", token_id_yes := "y1", token_id_no := "n1",
              max_spread := 3/100, min_size := 50, tick_size := 1/100,
              last_midpoint := 1/2 })] }
        [⟨"y1", Side.buy, 48/100, 50, "c1"⟩] (fun _ => ⟨none, none⟩)
        1000).1.market_blacklist = [] ∧
    (alookup (handle_filled_orders
        { positions := [("c1",
            { condition_id := "c1", token_id_yes := "y1", token_id_no := "n1",
              max_spread := 3/100, min_size := 50, tick_size := 1/100,
              last_midpoint := 1/2 })] }
        [⟨"y1", Side.buy, 48/100, 50, "c1"⟩] (fun _ => ⟨none, none⟩)
        1000).1.positions "c1").map (fun p => p.yes_inventory) = some 50 := by
  constructor
  · norm_num [handle_filled_orders, aggregate_fills, hfo_step, alookup, ainsert,
      cleanupPositions, posEmpty, List.enum, List.enumFrom, List.foldl,
      hfo_buy_branch, hfo_sell_branch,
      cancel_all_buys, place_order, track_order, calculate_sell_price,
      round_price_down, clamp_price, pyRound, rhe, GLOBAL_CIRCUIT_BREAKER,
      MAX_FILLS_BEFORE_BLOCK, FILL_COOLDOWN_SECONDS, MAX_ORDER_SIZE,
      MAX_SINGLE_ORDER_USDC, MAX_INVENTORY_PER_SIDE, MAX_ORDERS_PER_MARKET,
      OMState.setPositions, OMState.setLastGlobalFill]
  · norm_num [handle_filled_orders, aggregate_fills, hfo_step, alookup, ainsert,
      cleanupPositions, posEmpty, List.enum, List.enumFrom, List.foldl,
      hfo_buy_branch, hfo_sell_branch,
      cancel_all_buys, place_order, track_order, calculate_sell_price,
      round_price_down, clamp_price, pyRound, rhe, GLOBAL_CIRCUIT_BREAKER,
      MAX_FILLS_BEFORE_BLOCK, FILL_COOLDOWN_SECONDS, MAX_ORDER_SIZE,
      MAX_SINGLE_ORDER_USDC, MAX_INVENTORY_PER_SIDE, MAX_ORDERS_PER_MARKET,
      OMState.setPositions, OMState.setLastGlobalFill]

/-- C9 counterexample: `cancel_market_orders` with every exchange cancel
succeeding deletes the position even though it still holds 50 YES
shares — positions are not only destroyed when inventories are zero. -/
theorem c9_counterexample :
    (cancel_market_orders
        { positions := [("c1",
            { condition_id := "c1", token_id_yes := "y1", token_id_no := "n1",
              max_spread := 3/100, min_size := 50, tick_size := 1/100,
              last_midpoint := 1/2, yes_inventory := 50,
              yes_entry_price := 12/25 })] }
        "c1" (fun _ => true)).1.positions = [] ∧ (50 : ℚ) ≠ 0 := by
  refine ⟨?_, by norm_num⟩
  norm_num [cancel_market_orders, alookup, aerase, List.all,
    OMState.setPositions]


/-! ### Pushing projections through conditionals -/

theorem ite_fst_blacklist (c : Prop) [Decidable c]
    (a b : OMState × List OrderRequest) :
    (if c then a else b).1.market_blacklist =
      if c then a.1.market_blacklist else b.1.market_blacklist := by
  split <;> rfl

theorem ite_state_blacklist (c : Prop) [Decidable c] (a b : OMState) :
    (if c then a else b).market_blacklist =
      if c then a.market_blacklist else b.market_blacklist := by
  split <;> rfl

/-! ### C6: blacklisting on BUY fills -/

theorem hfo_buy_branch_blacklist (st : OMState) (cid token_id : String)
    (is_yes : Bool) (total_size mid : ℚ) (position : MarketPosition)
    (envi : FillKeyEnv) (now : ℚ) :
    (hfo_buy_branch st cid token_id is_yes total_size mid position
      envi now).1.market_blacklist = st.market_blacklist := by
  unfold hfo_buy_branch
  dsimp only
  simp [ite_fst_blacklist, ite_state_blacklist]

theorem hfo_sell_branch_blacklist (st : OMState) (cid : String)
    (is_yes : Bool) (total_size : ℚ) (position : MarketPosition) (now : ℚ) :
    (hfo_sell_branch st cid is_yes total_size position
      now).1.market_blacklist = st.market_blacklist := by
  unfold hfo_sell_branch
  dsimp only
  simp

theorem hfo_step_blacklist (env : ℕ → FillKeyEnv) (now : ℚ)
    (acc : OMState × List OrderRequest)
    (item : ℕ × ((String × String × Side) × ℚ)) :
    (hfo_step env now acc item).1.market_blacklist = acc.1.market_blacklist := by
  obtain ⟨st, trace⟩ := acc
  obtain ⟨i, ⟨⟨cid, token_id, side⟩, total_size⟩⟩ := item
  simp only [hfo_step]
  cases h : alookup st.positions cid with
  | none => rfl
  | some position =>
    cases side with
    | sell =>
      dsimp only
      rw [if_neg (by simp)]
      exact hfo_sell_branch_blacklist ..
    | buy =>
      dsimp only
      rw [if_pos rfl]
      exact hfo_buy_branch_blacklist ..

theorem hfo_blacklist_frame (st : OMState) (fills : List FillEvent)
    (env : ℕ → FillKeyEnv) (now : ℚ) :
    (handle_filled_orders st fills env now).1.market_blacklist =
      st.market_blacklist := by
  unfold handle_filled_orders
  have key : ∀ (l : List (ℕ × ((String × String × Side) × ℚ)))
      (acc : OMState × List OrderRequest),
      (l.foldl (hfo_step env now) acc).1.market_blacklist =
        acc.1.market_blacklist := by
    intro l
    induction l with
    | nil => intro acc; rfl
    | cons hd tl ih =>
      intro acc
      rw [List.foldl_cons, ih, hfo_step_blacklist]
  dsimp only
  rw [setPositions_blacklist, key]

theorem ws_buy_branch_blacklist (st : OMState) (cid : String)
    (position : MarketPosition) (token_id : String) (is_yes : Bool)
    (size_matched price : ℚ) (env : WsEnv) (now : ℚ) :
    (ws_buy_branch st cid position token_id is_yes size_matched price
      env now).1.market_blacklist = ainsert st.market_blacklist cid now := by
  unfold ws_buy_branch
  dsimp only
  simp [ite_fst_blacklist, ite_state_blacklist, wbc_blacklist, blacklist_market]

/-- C6 (amended): a BUY fill processed through the streamed path
(`handle_ws_fill` on a tracked BUY order) adds condition C to the market
blacklist with timestamp `now`, and `is_blacklisted(C)` then returns true
until `MARKET_BLACKLIST_SECONDS` have elapsed and false afterwards; the
REST sync path (`handle_filled_orders`) never touches the blacklist. -/
theorem c6_buy_fill_blacklists :
    (∀ (st : OMState) (order_id asset_id side_field : String)
      (size_matched price : ℚ) (env : WsEnv) (now : ℚ)
      (cid : String) (pos : MarketPosition) (ord : ActiveOrder),
      find_tracked_order st.positions order_id = some (cid, pos, ord) →
      ord.side = Side.buy →
      alookup (handle_ws_fill st order_id asset_id side_field size_matched
        price env now).1.market_blacklist cid = some now) ∧
    (∀ (st : OMState) (cid : String) (t0 now2 : ℚ),
      alookup st.market_blacklist cid = some t0 →
      ((is_blacklisted st cid now2).1 = true ↔
        now2 - t0 < MARKET_BLACKLIST_SECONDS)) ∧
    (∀ (st : OMState) (fills : List FillEvent) (env : ℕ → FillKeyEnv) (now : ℚ),
      (handle_filled_orders st fills env now).1.market_blacklist =
        st.market_blacklist) := by
  refine ⟨?_, ?_, hfo_blacklist_frame⟩
  · intro st order_id asset_id side_field size_matched price env now cid pos ord
      hfind hside
    unfold handle_ws_fill
    rw [hfind]
    dsimp only
    rw [hside, if_pos rfl, ws_buy_branch_blacklist, alookup_ainsert]
  · intro st cid t0 now2 h
    unfold is_blacklisted
    rw [h]
    dsimp only
    split_ifs with h1
    · simp only [Bool.false_eq_true, false_iff, not_lt]
      exact h1
    · simp only [true_iff]
      push_neg at h1
      exact h1

/-- Witness for C6 (amended): a concrete streamed BUY fill on a tracked
order blacklists the market at the fill time. -/
theorem c6_buy_fill_blacklists_witness :
    find_tracked_order
        [("c1", { condition_id := "c1", token_id_yes := "y1", token_id_no := "n1",
                  max_spread := 3/100, min_size := 50, tick_size := 1/100,
                  last_midpoint := 1/2,
                  orders := [⟨"o1", "y1", Side.buy, 12/25, 50, "c1", 0, 1/2⟩] })]
        "o1" =
      some ("c1",
        { condition_id := "c1", token_id_yes := "y1", token_id_no := "n1",
          max_spread := 3/100, min_size := 50, tick_size := 1/100,
          last_midpoint := 1/2,
          orders := [⟨"o1", "y1", Side.buy, 12/25, 50, "c1", 0, 1/2⟩] },
        ⟨"o1", "y1", Side.buy, 12/25, 50, "c1", 0, 1/2⟩) ∧
    alookup (handle_ws_fill
        { positions := [("c1",
            { condition_id := "c1", token_id_yes := "y1", token_id_no := "n1",
              max_spread := 3/100, min_size := 50, tick_size := 1/100,
              last_midpoint := 1/2,
              orders := [⟨"o1", "y1", Side.buy, 12/25, 50, "c1", 0, 1/2⟩] })] }
        "o1" "y1" "SELL" 50 (12/25) ⟨none, none⟩
        1000).1.market_blacklist "c1" = some 1000 := by
  have hfind : find_tracked_order
      [("c1", { condition_id := "c1", token_id_yes := "y1", token_id_no := "n1",
                max_spread := 3/100, min_size := 50, tick_size := 1/100,
                last_midpoint := 1/2,
                orders := [⟨"o1", "y1", Side.buy, 12/25, 50, "c1", 0, 1/2⟩] })]
      "o1" =
    some ("c1",
      { condition_id := "c1", token_id_yes := "y1", token_id_no := "n1",
        max_spread := 3/100, min_size := 50, tick_size := 1/100,
        last_midpoint := 1/2,
        orders := [⟨"o1", "y1", Side.buy, 12/25, 50, "c1", 0, 1/2⟩] },
      ⟨"o1", "y1", Side.buy, 12/25, 50, "c1", 0, 1/2⟩) := by
    norm_num [find_tracked_order, List.find?]
  exact ⟨hfind, c6_buy_fill_blacklists.1 _ "o1" "y1" "SELL" 50 (12/25)
    ⟨none, none⟩ 1000 "c1" _ _ hfind rfl⟩

/-! ### C3: the global fill pause suppresses every BUY path -/

theorem cmo_lgf (st : OMState) (cid : String) (f : String → Bool) :
    (cancel_market_orders st cid f).1.last_global_fill = st.last_global_fill := by
  unfold cancel_market_orders
  cases alookup st.positions cid
  · rfl
  · dsimp only
    split <;> rfl

theorem is_global_paused_congr {st1 st2 : OMState} (now : ℚ)
    (h : st1.last_global_fill = st2.last_global_fill) :
    is_global_paused st1 now = is_global_paused st2 now := by
  unfold is_global_paused
  rw [h]

theorem is_global_paused_cmo (st : OMState) (cid : String) (f : String → Bool)
    (now : ℚ) :
    is_global_paused (cancel_market_orders st cid f).1 now =
      is_global_paused st now :=
  is_global_paused_congr now (cmo_lgf st cid f)

theorem is_global_paused_setPositions (st : OMState)
    (ps : List (String × MarketPosition)) (now : ℚ) :
    is_global_paused (st.setPositions ps) now = is_global_paused st now := rfl

theorem place_order_snd_side (st : OMState) (token_id : String)
    (price size : ℚ) (side : Side) (cid : String) (mid now mos : ℚ)
    (resp : Option String) :
    (place_order st token_id price size side cid mid now mos resp).2.side =
      side := by
  simp only [place_order]
  split_ifs <;> first | rfl | (cases resp <;> rfl)

theorem ite_result_trace (c : Prop) [Decidable c]
    (a b : OMState × Option MarketPosition × List OrderRequest) :
    (if c then a else b).2.2 = if c then a.2.2 else b.2.2 := by
  split <;> rfl

theorem ite_pair_trace (c : Prop) [Decidable c]
    (a b : MarketPosition × List OrderRequest) :
    (if c then a else b).2 = if c then a.2 else b.2 := by
  split <;> rfl

set_option maxHeartbeats 1600000 in
theorem replace_requote_go_no_buy_when_paused (st : OMState) (cid : String)
    (new_mid : ℚ) (position : MarketPosition) (env : ReplaceEnv) (now : ℚ)
    (prices : ℚ × ℚ) (hp : is_global_paused st now = true) :
    ∀ r ∈ (replace_requote_go st cid new_mid position env now prices).2.2,
      r.side ≠ Side.buy := by
  intro r hr
  unfold replace_requote_go at hr
  dsimp only at hr
  rw [hp] at hr
  simp only [ite_result_trace] at hr
  rw [ite_self] at hr
  simp only [ite_pair_trace] at hr
  simp only [Bool.true_or, Bool.true_eq_false, and_false, if_false] at hr
  split at hr <;> split at hr <;>
    simp only [List.nil_append, List.mem_append, List.mem_singleton,
      List.not_mem_nil, false_or, or_false] at hr
  · rcases hr with hr | hr <;>
      · rw [hr]
        rw [place_order_snd_side]
        simp
  · rw [hr]
    rw [place_order_snd_side]
    simp
  · rw [hr]
    rw [place_order_snd_side]
    simp

theorem replace_requote_no_buy_when_paused (st : OMState) (cid : String)
    (new_mid : ℚ) (position : MarketPosition) (env : ReplaceEnv) (now : ℚ)
    (hp : is_global_paused st now = true) :
    ∀ r ∈ (replace_requote st cid new_mid position env now).2.2,
      r.side ≠ Side.buy := by
  intro r hr
  unfold replace_requote at hr
  dsimp only at hr
  split at hr
  · exact absurd hr (List.not_mem_nil r)
  · exact replace_requote_go_no_buy_when_paused _ _ _ _ _ _ _ hp r hr

set_option maxHeartbeats 1600000 in
/-- C3: whenever the global circuit-breaker pause is active, no BUY order
request is issued by initial placement (`place_two_sided_orders`), drift
replacement (`replace_orders`) or cooldown re-entry
(`process_cooldown_reentries`); SELL placement remains allowed (a paused
drift replacement still submits the unwind SELL, shown on a concrete
inventory-holding state). -/
theorem c3_global_pause_no_buys :
    (∀ (st : OMState) (opp : MarketOpportunity) (env : PlaceEnv) (now : ℚ),
      is_global_paused st now = true →
      ∀ r ∈ (place_two_sided_orders st opp env now).2.2, r.side ≠ Side.buy) ∧
    (∀ (st : OMState) (cid : String) (new_mid : ℚ) (env : ReplaceEnv) (now : ℚ),
      is_global_paused st now = true →
      ∀ r ∈ (replace_orders st cid new_mid env now).2.2, r.side ≠ Side.buy) ∧
    (∀ (st : OMState) (env : ReentryEnv) (now : ℚ),
      is_global_paused st now = true →
      ∀ r ∈ (process_cooldown_reentries st env now).2, r.side ≠ Side.buy) ∧
    (∃ r ∈ (replace_orders
        { positions := [("c1",
            { condition_id := "c1", token_id_yes := "y1", token_id_no := "n1",
              max_spread := 3/100, min_size := 50, tick_size := 1/100,
              last_midpoint := 1/2, yes_inventory := 50,
              yes_entry_price := 12/25 })],
          last_global_fill := 100 }
        "c1" (1/2) ⟨some [], fun _ => none, fun _ => true, none, none,
          some "s1", none, false⟩ 150).2.2,
      r.side = Side.sell ∧ r.submitted = true) := by
  refine ⟨?_, ?_, ?_, ?_⟩
  · intro st opp env now hp r hr
    unfold place_two_sided_orders at hr
    rw [hp] at hr
    simp at hr
  · intro st cid new_mid env now hp r hr
    unfold replace_orders at hr
    cases h : alookup st.positions cid with
    | none =>
      rw [h] at hr
      exact absurd hr (List.not_mem_nil r)
    | some position =>
      rw [h] at hr
      dsimp only at hr
      have hp2 : is_global_paused
          ((cancel_market_orders (st.setPositions (ainsert st.positions cid
            (replace_fill_detect position env new_mid now))) cid
            env.cancel_ok).1) now = true := by
        rw [is_global_paused_cmo, is_global_paused_setPositions]
        exact hp
      exact replace_requote_no_buy_when_paused _ _ _ _ _ _ hp2 r hr
  · intro st env now hp r hr
    unfold process_cooldown_reentries at hr
    rw [hp] at hr
    simp at hr
  · refine ⟨⟨"y1", 1/2, 50, Side.sell, "c1", true⟩, ?_, rfl, rfl⟩
    norm_num [replace_orders, replace_fill_detect, replace_requote,
      replace_requote_go, alookup,
      ainsert, aerase, cancel_market_orders,
      is_global_paused, calculate_order_prices, buy_price_one, compute_buffer,
      round_price_down, clamp_price, pyRound, rhe, calculate_sell_price,
      place_order, track_order, OMState.setPositions, List.all,
      GLOBAL_CIRCUIT_BREAKER, GLOBAL_FILL_PAUSE_SECONDS, FILL_COOLDOWN_SECONDS,
      SPREAD_BUFFER_FRACTION, MIN_SPREAD_BUFFER, MAX_ORDER_SIZE,
      MAX_SINGLE_ORDER_USDC, MAX_ORDERS_PER_MARKET, get_size_multiplier]

theorem c3_global_pause_no_buys_witness :
    is_global_paused { positions := [], last_global_fill := 100 } 150 = true ∧
    ∀ r ∈ (place_two_sided_orders { positions := [], last_global_fill := 100 }
        ⟨"c1", "y1", "n1", 1/2, 3/100, 50, 1/100⟩
        ⟨none, none, false⟩ 150).2.2, r.side ≠ Side.buy :=
  ⟨by norm_num [is_global_paused, GLOBAL_CIRCUIT_BREAKER,
      GLOBAL_FILL_PAUSE_SECONDS],
   c3_global_pause_no_buys.1 _ _ _ _
     (by norm_num [is_global_paused, GLOBAL_CIRCUIT_BREAKER,
        GLOBAL_FILL_PAUSE_SECONDS])⟩

@[simp] theorem setPositions_setPositions (st : OMState) (a b) :
    (st.setPositions a).setPositions b = st.setPositions b := rfl

theorem aggregate_fills_singleton (f : FillEvent) :
    aggregate_fills [f] = [((f.condition_id, f.token_id, f.side), f.size)] := by
  simp [aggregate_fills, ainsert, alookup]

theorem enum_singleton {α : Type} (x : α) : [x].enum = [(0, x)] := rfl

theorem hfo_step_sell_yes (env : ℕ → FillKeyEnv) (now : ℚ) (st : OMState)
    (trace : List OrderRequest) (cid token_id : String)
    (position : MarketPosition) (sz : ℚ) (i : ℕ)
    (h : alookup st.positions cid = some position)
    (htid : token_id = position.token_id_yes) :
    hfo_step env now (st, trace) (i, ((cid, token_id, Side.sell), sz)) =
      (st.setPositions (ainsert st.positions cid
        { position with
          last_midpoint := ((env i).mid).getD position.last_midpoint,
          yes_inventory := max 0 (position.yes_inventory - sz),
          yes_entry_price := 0, yes_last_sell_fill := now }),
       trace ++ []) := by
  unfold hfo_step
  dsimp only
  rw [h]
  dsimp only
  rw [htid]
  simp [hfo_sell_branch]

theorem hfo_step_sell_no (env : ℕ → FillKeyEnv) (now : ℚ) (st : OMState)
    (trace : List OrderRequest) (cid token_id : String)
    (position : MarketPosition) (sz : ℚ) (i : ℕ)
    (h : alookup st.positions cid = some position)
    (htid : token_id ≠ position.token_id_yes) :
    hfo_step env now (st, trace) (i, ((cid, token_id, Side.sell), sz)) =
      (st.setPositions (ainsert st.positions cid
        { position with
          last_midpoint := ((env i).mid).getD position.last_midpoint,
          no_inventory := max 0 (position.no_inventory - sz),
          no_entry_price := 0, no_last_sell_fill := now }),
       trace ++ []) := by
  unfold hfo_step
  dsimp only
  rw [h]
  dsimp only
  simp [hfo_sell_branch, htid]

/-- C5 (amended): a SELL fill of size Δ decrements the side's inventory by
Δ with a floor of 0 and places no order (in particular no BUY) on either
fill path; the streamed path (`handle_ws_fill`) clears the side's entry
price and stamps `last_sell_fill` exactly when the resulting inventory is
0, while the REST path (`handle_filled_orders`) clears the entry price and
stamps `last_sell_fill` unconditionally, even when inventory remains. -/
theorem c5_sell_fill_behavior :
    (∀ (st : OMState) (cid : String) (position : MarketPosition)
        (f : FillEvent) (env : ℕ → FillKeyEnv) (now : ℚ),
      alookup st.positions cid = some position →
      f.condition_id = cid → f.side = Side.sell →
      f.token_id = position.token_id_yes →
      ∃ p' : MarketPosition,
        handle_filled_orders st [f] env now =
          (st.setPositions (cleanupPositions (ainsert st.positions cid p')),
           []) ∧
        p'.yes_inventory = max 0 (position.yes_inventory - f.size) ∧
        p'.yes_entry_price = 0 ∧
        p'.yes_last_sell_fill = now) ∧
    (∀ (st : OMState) (cid : String) (position : MarketPosition)
        (f : FillEvent) (env : ℕ → FillKeyEnv) (now : ℚ),
      alookup st.positions cid = some position →
      f.condition_id = cid → f.side = Side.sell →
      f.token_id ≠ position.token_id_yes →
      ∃ p' : MarketPosition,
        handle_filled_orders st [f] env now =
          (st.setPositions (cleanupPositions (ainsert st.positions cid p')),
           []) ∧
        p'.no_inventory = max 0 (position.no_inventory - f.size) ∧
        p'.no_entry_price = 0 ∧
        p'.no_last_sell_fill = now) ∧
    (∀ (st : OMState) (oid aid sf : String) (sm price : ℚ) (env : WsEnv)
        (now : ℚ) (cid : String) (position : MarketPosition)
        (mo : ActiveOrder),
      find_tracked_order st.positions oid = some (cid, position, mo) →
      mo.side = Side.sell → mo.token_id = position.token_id_yes →
      ∃ p' : MarketPosition,
        handle_ws_fill st oid aid sf sm price env now =
          (write_back_cleanup st cid p', []) ∧
        p'.yes_inventory = max 0 (position.yes_inventory - sm) ∧
        (p'.yes_inventory = 0 →
          p'.yes_entry_price = 0 ∧ p'.yes_last_sell_fill = now) ∧
        (p'.yes_inventory ≠ 0 →
          p'.yes_entry_price = position.yes_entry_price ∧
          p'.yes_last_sell_fill = position.yes_last_sell_fill)) ∧
    (∀ (st : OMState) (oid aid sf : String) (sm price : ℚ) (env : WsEnv)
        (now : ℚ) (cid : String) (position : MarketPosition)
        (mo : ActiveOrder),
      find_tracked_order st.positions oid = some (cid, position, mo) →
      mo.side = Side.sell → mo.token_id ≠ position.token_id_yes →
      ∃ p' : MarketPosition,
        handle_ws_fill st oid aid sf sm price env now =
          (write_back_cleanup st cid p', []) ∧
        p'.no_inventory = max 0 (position.no_inventory - sm) ∧
        (p'.no_inventory = 0 →
          p'.no_entry_price = 0 ∧ p'.no_last_sell_fill = now) ∧
        (p'.no_inventory ≠ 0 →
          p'.no_entry_price = position.no_entry_price ∧
          p'.no_last_sell_fill = position.no_last_sell_fill)) := by
  refine ⟨?_, ?_, ?_, ?_⟩
  · intro st cid position f env now h hcid hside htid
    refine ⟨{ position with
        last_midpoint := ((env 0).mid).getD position.last_midpoint,
        yes_inventory := max 0 (position.yes_inventory - f.size),
        yes_entry_price := 0, yes_last_sell_fill := now },
      ?_, rfl, rfl, rfl⟩
    unfold handle_filled_orders
    rw [aggregate_fills_singleton, hcid, hside, enum_singleton,
      List.foldl_cons, List.foldl_nil, hfo_step_sell_yes env now st [] cid
        f.token_id position f.size 0 h htid]
    simp
  · intro st cid position f env now h hcid hside htid
    refine ⟨{ position with
        last_midpoint := ((env 0).mid).getD position.last_midpoint,
        no_inventory := max 0 (position.no_inventory - f.size),
        no_entry_price := 0, no_last_sell_fill := now },
      ?_, rfl, rfl, rfl⟩
    unfold handle_filled_orders
    rw [aggregate_fills_singleton, hcid, hside, enum_singleton,
      List.foldl_cons, List.foldl_nil, hfo_step_sell_no env now st [] cid
        f.token_id position f.size 0 h htid]
    simp
  · intro st oid aid sf sm price env now cid position mo hf hside htid
    unfold handle_ws_fill
    rw [hf]
    dsimp only
    rw [hside]
    simp only [reduceCtorEq, if_false]
    split <;>
    · unfold ws_sell_branch
      dsimp only
      simp only [htid, eq_self_iff_true, decide_True, if_true]
      refine ⟨_, rfl, ?_, ?_, ?_⟩
      · split <;> rfl
      · split
        · intro _
          exact ⟨rfl, rfl⟩
        · rename_i hcond
          intro hz
          exact absurd hz hcond
      · split
        · rename_i hcond
          intro hne
          exact absurd hcond hne
        · intro _
          exact ⟨rfl, rfl⟩
  · intro st oid aid sf sm price env now cid position mo hf hside htid
    unfold handle_ws_fill
    rw [hf]
    dsimp only
    rw [hside]
    simp only [reduceCtorEq, if_false]
    split <;>
    · unfold ws_sell_branch
      dsimp only
      simp only [htid, decide_False, Bool.false_eq_true, if_false]
      refine ⟨_, rfl, ?_, ?_, ?_⟩
      · split <;> rfl
      · split
        · intro _
          exact ⟨rfl, rfl⟩
        · rename_i hcond
          intro hz
          exact absurd hz hcond
      · split
        · rename_i hcond
          intro hne
          exact absurd hcond hne
        · intro _
          exact ⟨rfl, rfl⟩

set_option maxHeartbeats 1600000 in
theorem c5_sell_fill_behavior_witness :
    alookup ([("c1",
      { condition_id := "c1", token_id_yes := "y1", token_id_no := "n1", max_spread := 3/100, min_size := 50, tick_size := 1/100, yes_inventory := 10 })] :
        List (String × MarketPosition)) "c1" = some
      { condition_id := "c1", token_id_yes := "y1", token_id_no := "n1", max_spread := 3/100, min_size := 50, tick_size := 1/100, yes_inventory := 10 } ∧
    (⟨"y1", Side.sell, 1/2, 4, "c1"⟩ : FillEvent).condition_id = "c1" ∧
    (⟨"y1", Side.sell, 1/2, 4, "c1"⟩ : FillEvent).side = Side.sell ∧
    (⟨"y1", Side.sell, 1/2, 4, "c1"⟩ : FillEvent).token_id =
      MarketPosition.token_id_yes
      { condition_id := "c1", token_id_yes := "y1", token_id_no := "n1", max_spread := 3/100, min_size := 50, tick_size := 1/100, yes_inventory := 10 } ∧
    (∃ p' : MarketPosition,
      handle_filled_orders
        { positions := [("c1",
          { condition_id := "c1", token_id_yes := "y1", token_id_no := "n1", max_spread := 3/100, min_size := 50, tick_size := 1/100, yes_inventory := 10 })] }
        [⟨"y1", Side.sell, 1/2, 4, "c1"⟩] (fun _ => ⟨none, none⟩) 50 =
        (OMState.setPositions
          { positions := [("c1",
            { condition_id := "c1", token_id_yes := "y1", token_id_no := "n1", max_spread := 3/100, min_size := 50, tick_size := 1/100, yes_inventory := 10 })] }
          (cleanupPositions (ainsert
            [("c1",
              { condition_id := "c1", token_id_yes := "y1", token_id_no := "n1", max_spread := 3/100, min_size := 50, tick_size := 1/100, yes_inventory := 10 })] "c1" p')), []) ∧
      p'.yes_inventory = max 0 (10 - 4) ∧
      p'.yes_entry_price = 0 ∧
      p'.yes_last_sell_fill = 50) :=
  ⟨rfl, rfl, rfl, rfl,
   c5_sell_fill_behavior.1
     { positions := [("c1",
       { condition_id := "c1", token_id_yes := "y1", token_id_no := "n1", max_spread := 3/100, min_size := 50, tick_size := 1/100, yes_inventory := 10 })] }
     "c1"
     { condition_id := "c1", token_id_yes := "y1", token_id_no := "n1", max_spread := 3/100, min_size := 50, tick_size := 1/100, yes_inventory := 10 }
     ⟨"y1", Side.sell, 1/2, 4, "c1"⟩ (fun _ => ⟨none, none⟩) 50
     rfl rfl rfl rfl⟩

theorem alookup_ainsert_isSome {α β : Type} [DecidableEq α]
    (l : List (α × β)) (k a : α) (v : β)
    (h : (alookup l a).isSome = true) :
    (alookup (ainsert l k v) a).isSome = true := by
  by_cases hk : k = a
  · subst hk
    rw [alookup_ainsert]
    rfl
  · rw [alookup_ainsert_ne l k a v hk]
    exact h

theorem cleanupPositions_keeps (ps : List (String × MarketPosition))
    (cid : String) (p : MarketPosition) (h : alookup ps cid = some p)
    (hne : ¬ posEmpty p) : alookup (cleanupPositions ps) cid = some p := by
  induction ps with
  | nil => simp [alookup] at h
  | cons hd tl ih =>
    obtain ⟨c, q⟩ := hd
    by_cases hc : c = cid
    · subst hc
      rw [alookup, if_pos rfl] at h
      injection h with h
      subst h
      rw [cleanupPositions, List.filter_cons, if_pos (by simpa using hne)]
      rw [alookup, if_pos rfl]
    · rw [alookup, if_neg hc] at h
      rw [cleanupPositions, List.filter_cons]
      split
      · rw [alookup, if_neg hc]
        exact ih h
      · exact ih h

theorem retry_side_positions (st : OMState) (cid : String)
    (pos : MarketPosition) (is_yes : Bool) (env : RetryEnv) (now : ℚ) :
    (retry_side st cid pos is_yes env now).2.1.positions = st.positions := by
  unfold retry_side
  dsimp only
  split_ifs <;> first
    | rfl
    | · split <;> simp

theorem retry_body_preserves_presence (env : RetryEnv) (now : ℚ)
    (acc : OMState × List OrderRequest) (item : String × MarketPosition)
    (cid' : String) (h : (alookup acc.1.positions cid').isSome = true) :
    (alookup ((retry_body env now acc item).1.positions) cid').isSome
      = true := by
  obtain ⟨st, trace⟩ := acc
  obtain ⟨cid, pos0⟩ := item
  unfold retry_body
  dsimp only
  rw [setPositions_positions, retry_side_positions, retry_side_positions]
  exact alookup_ainsert_isSome _ _ _ _ h

theorem alookup_map_fst_preserving {α β γ : Type} [DecidableEq α]
    (l : List (α × β)) (F : α × β → α × γ) (hF : ∀ p, (F p).1 = p.1)
    (a : α) : (alookup (l.map F) a).isSome = (alookup l a).isSome := by
  induction l with
  | nil => simp [alookup]
  | cons hd tl ih =>
    obtain ⟨k, b⟩ := hd
    rcases hFhd : F (k, b) with ⟨a1, g⟩
    have ha1 : a1 = k := by
      have h2 := hF (k, b)
      rw [hFhd] at h2
      exact h2
    rw [ha1] at hFhd
    rw [List.map_cons, hFhd]
    simp only [alookup]
    by_cases hc : k = a
    · rw [if_pos hc, if_pos hc]
      rfl
    · rw [if_neg hc, if_neg hc]
      exact ih

theorem ite_fst_pred {c : Prop} [Decidable c]
    {A B : OMState × List OrderRequest} (P : OMState → Prop)
    (hA : P A.1) (hB : P B.1) : P (if c then A else B).1 := by
  by_cases hc : c
  · rw [if_pos hc]
    exact hA
  · rw [if_neg hc]
    exact hB

theorem cancel_all_buys_presence (st : OMState) (cid : String)
    (h : (alookup st.positions cid).isSome = true) :
    (alookup (cancel_all_buys st).positions cid).isSome = true := by
  unfold cancel_all_buys
  rw [setPositions_positions]
  exact (alookup_map_fst_preserving st.positions
    (fun cp => (cp.1,
      { cp.2 with orders := cp.2.orders.filter (fun o => o.side ≠ Side.buy) }))
    (fun p => rfl) cid).trans h

theorem hfo_buy_branch_presence (st : OMState) (cid token_id : String)
    (is_yes : Bool) (total_size mid : ℚ) (position : MarketPosition)
    (envi : FillKeyEnv) (now : ℚ) (cid' : String)
    (h : (alookup st.positions cid').isSome = true) :
    (alookup ((hfo_buy_branch st cid token_id is_yes total_size mid position
      envi now).1.positions) cid').isSome = true := by
  unfold hfo_buy_branch
  dsimp only
  rw [if_pos (show GLOBAL_CIRCUIT_BREAKER = true by rw [GLOBAL_CIRCUIT_BREAKER])]
  refine ite_fst_pred
    (fun s => (alookup s.positions cid').isSome = true) ?_ ?_
  all_goals
    dsimp only
    rw [setPositions_positions]
    apply alookup_ainsert_isSome
    apply cancel_all_buys_presence
    rw [setLastGlobalFill_positions, setPositions_positions]
    exact alookup_ainsert_isSome _ _ _ _ h

theorem hfo_step_preserves_presence (env : ℕ → FillKeyEnv) (now : ℚ)
    (acc : OMState × List OrderRequest)
    (item : ℕ × ((String × String × Side) × ℚ)) (cid' : String)
    (h : (alookup acc.1.positions cid').isSome = true) :
    (alookup ((hfo_step env now acc item).1.positions) cid').isSome
      = true := by
  obtain ⟨st, trace⟩ := acc
  obtain ⟨i, ⟨⟨cid, token_id, side⟩, sz⟩⟩ := item
  unfold hfo_step
  dsimp only
  cases hl : alookup st.positions cid with
  | none => exact h
  | some position =>
    dsimp only
    cases side with
    | buy =>
      rw [if_pos rfl]
      exact hfo_buy_branch_presence _ _ _ _ _ _ _ _ _ _ h
    | sell =>
      rw [if_neg (by simp : ¬ (Side.sell = Side.buy))]
      dsimp only
      unfold hfo_sell_branch
      dsimp only
      rw [setPositions_positions]
      exact alookup_ainsert_isSome _ _ _ _ h

theorem ws_untracked_scan_deletes_only_empty (asset : String)
    (sm now : ℚ) :
    ∀ (ps ps2 : List (String × MarketPosition)) (cid : String)
      (p : MarketPosition),
      ws_untracked_scan asset sm now ps = some ps2 →
      alookup ps cid = some p →
      alookup ps2 cid = none →
      ∃ p2, ws_untracked_update asset sm now p = some p2 ∧ posEmpty p2 := by
  intro ps
  induction ps with
  | nil =>
    intro ps2 cid p hscan
    rw [ws_untracked_scan] at hscan
    exact absurd hscan (by simp)
  | cons hd tl ih =>
    intro ps2 cid p hscan hlook hnone
    obtain ⟨c, pos⟩ := hd
    rw [ws_untracked_scan] at hscan
    revert hscan
    cases hupd : ws_untracked_update asset sm now pos with
    | some pos2 =>
      intro hscan
      injection hscan with hscan
      subst hscan
      by_cases hc : c = cid
      · subst hc
        rw [alookup, if_pos rfl] at hlook
        injection hlook with hlook
        subst hlook
        by_cases hemp : posEmpty pos2
        · exact ⟨pos2, hupd, hemp⟩
        · rw [if_neg hemp] at hnone
          rw [alookup, if_pos rfl] at hnone
          exact absurd hnone (by simp)
      · rw [alookup, if_neg hc] at hlook
        split at hnone
        · rw [hnone] at hlook
          exact absurd hlook (by simp)
        · rw [alookup, if_neg hc] at hnone
          rw [hnone] at hlook
          exact absurd hlook (by simp)
    | none =>
      cases hrec : ws_untracked_scan asset sm now tl with
      | none =>
        intro hscan
        exact absurd hscan (by simp)
      | some rest2 =>
        intro hscan
        injection hscan with hscan
        subst hscan
        by_cases hc : c = cid
        · subst hc
          rw [alookup, if_pos rfl] at hnone
          exact absurd hnone (by simp)
        · rw [alookup, if_neg hc] at hlook
          rw [alookup, if_neg hc] at hnone
          exact ih rest2 cid p hrec hlook hnone

/-- C9 (amended): the fill handlers and the retry sweep delete a ledger
position only when it is empty — the final cleanup passes of
`handle_filled_orders` and `retry_pending_sells` keep every binding whose
position still has orders or inventory, `handle_ws_fill`'s write-back
keeps any non-empty updated position and its untracked-fill scan deletes
a position only when the update left it empty, and the per-key processing
steps never remove a ledger key.  `cancel_market_orders`, by contrast,
deletes the position whenever every cancellation succeeds, regardless of
remaining inventory (see the counterexample). -/
theorem c9_delete_only_when_empty :
    (∀ (ps : List (String × MarketPosition)) (cid : String)
        (p : MarketPosition),
      alookup ps cid = some p → ¬ posEmpty p →
      alookup (cleanupPositions ps) cid = some p) ∧
    (∀ (st : OMState) (cid : String) (position : MarketPosition),
      ¬ posEmpty position →
      alookup ((write_back_cleanup st cid position).positions) cid =
        some position) ∧
    (∀ (env : ℕ → FillKeyEnv) (now : ℚ) (acc : OMState × List OrderRequest)
        (item : ℕ × ((String × String × Side) × ℚ)) (cid' : String),
      (alookup acc.1.positions cid').isSome = true →
      (alookup ((hfo_step env now acc item).1.positions) cid').isSome
        = true) ∧
    (∀ (env : RetryEnv) (now : ℚ) (acc : OMState × List OrderRequest)
        (item : String × MarketPosition) (cid' : String),
      (alookup acc.1.positions cid').isSome = true →
      (alookup ((retry_body env now acc item).1.positions) cid').isSome
        = true) ∧
    (∀ (asset : String) (sm now : ℚ)
        (ps ps2 : List (String × MarketPosition)) (cid : String)
        (p : MarketPosition),
      ws_untracked_scan asset sm now ps = some ps2 →
      alookup ps cid = some p → alookup ps2 cid = none →
      ∃ p2, ws_untracked_update asset sm now p = some p2 ∧ posEmpty p2) :=
  ⟨cleanupPositions_keeps,
   fun st cid position hne => by
     unfold write_back_cleanup
     rw [if_neg hne, setPositions_positions]
     exact alookup_ainsert _ _ _,
   hfo_step_preserves_presence,
   retry_body_preserves_presence,
   fun asset sm now ps => ws_untracked_scan_deletes_only_empty asset sm now ps⟩

theorem c9_delete_only_when_empty_witness :
    alookup ([("c1",
      { condition_id := "c1", token_id_yes := "y1", token_id_no := "n1", max_spread := 3/100, min_size := 50, tick_size := 1/100, yes_inventory := 10 })] :
        List (String × MarketPosition)) "c1" = some
      { condition_id := "c1", token_id_yes := "y1", token_id_no := "n1", max_spread := 3/100, min_size := 50, tick_size := 1/100, yes_inventory := 10 } ∧
    ¬ posEmpty
      { condition_id := "c1", token_id_yes := "y1", token_id_no := "n1", max_spread := 3/100, min_size := 50, tick_size := 1/100, yes_inventory := 10 } ∧
    alookup (cleanupPositions [("c1",
      { condition_id := "c1", token_id_yes := "y1", token_id_no := "n1", max_spread := 3/100, min_size := 50, tick_size := 1/100, yes_inventory := 10 })]) "c1" = some
      { condition_id := "c1", token_id_yes := "y1", token_id_no := "n1", max_spread := 3/100, min_size := 50, tick_size := 1/100, yes_inventory := 10 } :=
  ⟨rfl,
   by norm_num [posEmpty],
   c9_delete_only_when_empty.1 ([("c1",
     { condition_id := "c1", token_id_yes := "y1", token_id_no := "n1", max_spread := 3/100, min_size := 50, tick_size := 1/100, yes_inventory := 10 })] :
       List (String × MarketPosition)) "c1"
     { condition_id := "c1", token_id_yes := "y1", token_id_no := "n1", max_spread := 3/100, min_size := 50, tick_size := 1/100, yes_inventory := 10 }
     rfl (by norm_num [posEmpty])⟩

theorem place_order_snd_size (st : OMState) (token_id : String)
    (price size : ℚ) (side : Side) (cid : String) (mid now mos : ℚ)
    (resp : Option String) :
    (place_order st token_id price size side cid mid now mos resp).2.size =
      size := by
  simp only [place_order]
  split_ifs <;> first | rfl | (cases resp <;> rfl)

theorem place_order_snd_token (st : OMState) (token_id : String)
    (price size : ℚ) (side : Side) (cid : String) (mid now mos : ℚ)
    (resp : Option String) :
    (place_order st token_id price size side cid mid now mos resp).2.token_id
      = token_id := by
  simp only [place_order]
  split_ifs <;> first | rfl | (cases resp <;> rfl)

theorem alookup_cancel_all_buys (st : OMState) (a : String) :
    alookup (cancel_all_buys st).positions a = (alookup st.positions a).map
      (fun pos =>
        { pos with orders := pos.orders.filter (fun o => o.side ≠ Side.buy) })
      := by
  unfold cancel_all_buys
  rw [setPositions_positions]
  exact alookup_map_snd st.positions
    (fun pos =>
      { pos with orders := pos.orders.filter (fun o => o.side ≠ Side.buy) }) a

theorem any_filter_false {α : Type} (l : List α) (P Q : α → Bool)
    (h : l.any Q = false) : (l.filter P).any Q = false := by
  rw [List.any_eq_false] at h ⊢
  intro x hx
  exact h x (List.mem_of_mem_filter hx)

theorem aggregate_fills_go (cid tid : String) (sd : Side) :
    ∀ (fills : List FillEvent) (s : ℚ),
      (∀ f ∈ fills, f.condition_id = cid ∧ f.token_id = tid ∧ f.side = sd) →
      fills.foldl (fun acc fill =>
        let key := (fill.condition_id, fill.token_id, fill.side)
        ainsert acc key ((alookup acc key).getD 0 + fill.size))
        [((cid, tid, sd), s)]
      = [((cid, tid, sd), s + (fills.map FillEvent.size).sum)] := by
  intro fills
  induction fills with
  | nil =>
    intro s _
    simp
  | cons f rest ih =>
    intro s hk
    obtain ⟨h1, h2, h3⟩ := hk f (List.mem_cons_self f rest)
    rw [List.foldl_cons]
    dsimp only
    rw [h1, h2, h3]
    rw [show alookup [((cid, tid, sd), s)] (cid, tid, sd) = some s from by
      rw [alookup, if_pos rfl]]
    rw [show ainsert [((cid, tid, sd), s)] (cid, tid, sd)
        ((some s).getD 0 + f.size) = [((cid, tid, sd), s + f.size)] from by
      rw [ainsert, if_pos rfl]
      rfl]
    rw [ih (s + f.size) (fun g hg => hk g (List.mem_cons_of_mem f hg))]
    rw [List.map_cons, List.sum_cons, add_assoc]

theorem aggregate_fills_const_key (fills : List FillEvent)
    (cid tid : String) (sd : Side) (hne : fills ≠ [])
    (hk : ∀ f ∈ fills, f.condition_id = cid ∧ f.token_id = tid ∧
      f.side = sd) :
    aggregate_fills fills =
      [((cid, tid, sd), (fills.map FillEvent.size).sum)] := by
  cases fills with
  | nil => exact absurd rfl hne
  | cons f rest =>
    obtain ⟨h1, h2, h3⟩ := hk f (List.mem_cons_self f rest)
    unfold aggregate_fills
    rw [List.foldl_cons]
    dsimp only
    rw [h1, h2, h3]
    rw [show (alookup ([] : List ((String × String × Side) × ℚ))
      (cid, tid, sd)).getD 0 + f.size = 0 + f.size from rfl]
    rw [show ainsert ([] : List ((String × String × Side) × ℚ))
      (cid, tid, sd) (0 + f.size) = [((cid, tid, sd), 0 + f.size)] from rfl]
    rw [aggregate_fills_go cid tid sd rest (0 + f.size)
      (fun g hg => hk g (List.mem_cons_of_mem f hg))]
    rw [List.map_cons, List.sum_cons, zero_add]

theorem hfo_buy_branch_sell_trace (st : OMState) (cid token_id : String)
    (is_yes : Bool) (sz mid : ℚ) (position : MarketPosition)
    (envi : FillKeyEnv) (now : ℚ)
    (hns : position.orders.any
      (fun o => o.side = Side.sell ∧ o.token_id = token_id) = false) :
    ∃ r, (hfo_buy_branch st cid token_id is_yes sz mid position envi
        now).2 = [r] ∧
      r.side = Side.sell ∧ r.token_id = token_id ∧
      r.size = (if is_yes then position.yes_inventory
        else position.no_inventory) + sz := by
  cases is_yes with
  | true =>
    unfold hfo_buy_branch
    dsimp only
    simp only [eq_self_iff_true, if_true]
    rw [if_pos (show GLOBAL_CIRCUIT_BREAKER = true by
      rw [GLOBAL_CIRCUIT_BREAKER])]
    rw [alookup_cancel_all_buys, setLastGlobalFill_positions,
      setPositions_positions, alookup_ainsert]
    simp only [Option.map_some', Option.getD_some]
    simp only [apply_ite MarketPosition.orders,
      apply_ite MarketPosition.max_spread,
      apply_ite MarketPosition.tick_size,
      apply_ite MarketPosition.min_size]
    simp only [ite_self]
    split
    · rename_i h
      rw [List.any_eq_true] at h
      obtain ⟨o, ho, hQ⟩ := h
      rw [List.any_eq_false] at hns
      exact absurd hQ
        (hns o (List.mem_of_mem_filter (List.mem_of_mem_filter ho)))
    · refine ⟨_, rfl, ?_, ?_, ?_⟩
      · rw [place_order_snd_side]
      · rw [place_order_snd_token]
      · rw [place_order_snd_size]
  | false =>
    unfold hfo_buy_branch
    dsimp only
    simp only [Bool.false_eq_true, if_false]
    rw [if_pos (show GLOBAL_CIRCUIT_BREAKER = true by
      rw [GLOBAL_CIRCUIT_BREAKER])]
    rw [alookup_cancel_all_buys, setLastGlobalFill_positions,
      setPositions_positions, alookup_ainsert]
    simp only [Option.map_some', Option.getD_some]
    simp only [apply_ite MarketPosition.orders,
      apply_ite MarketPosition.max_spread,
      apply_ite MarketPosition.tick_size,
      apply_ite MarketPosition.min_size]
    simp only [ite_self]
    split
    · rename_i h
      rw [List.any_eq_true] at h
      obtain ⟨o, ho, hQ⟩ := h
      rw [List.any_eq_false] at hns
      exact absurd hQ
        (hns o (List.mem_of_mem_filter (List.mem_of_mem_filter ho)))
    · refine ⟨_, rfl, ?_, ?_, ?_⟩
      · rw [place_order_snd_side]
      · rw [place_order_snd_token]
      · rw [place_order_snd_size]

/-- C4: N ≥ 1 BUY fills for one (condition, token, side) key processed
together by `handle_filled_orders` on a position with no tracked SELL for
that token yield exactly one SELL request (not N), of size equal to the
prior side inventory plus the total filled size. -/
theorem c4_aggregated_buy_fills_one_sell :
    (∀ (st : OMState) (cid token_id : String) (position : MarketPosition)
        (fills : List FillEvent) (env : ℕ → FillKeyEnv) (now : ℚ),
      fills ≠ [] →
      (∀ f ∈ fills, f.condition_id = cid ∧ f.token_id = token_id ∧
        f.side = Side.buy) →
      alookup st.positions cid = some position →
      position.orders.any
        (fun o => o.side = Side.sell ∧ o.token_id = token_id) = false →
      token_id = position.token_id_yes →
      ∃ r, (handle_filled_orders st fills env now).2 = [r] ∧
        r.side = Side.sell ∧ r.token_id = token_id ∧
        r.size = position.yes_inventory +
          (fills.map FillEvent.size).sum) ∧
    (∀ (st : OMState) (cid token_id : String) (position : MarketPosition)
        (fills : List FillEvent) (env : ℕ → FillKeyEnv) (now : ℚ),
      fills ≠ [] →
      (∀ f ∈ fills, f.condition_id = cid ∧ f.token_id = token_id ∧
        f.side = Side.buy) →
      alookup st.positions cid = some position →
      position.orders.any
        (fun o => o.side = Side.sell ∧ o.token_id = token_id) = false →
      token_id ≠ position.token_id_yes →
      ∃ r, (handle_filled_orders st fills env now).2 = [r] ∧
        r.side = Side.sell ∧ r.token_id = token_id ∧
        r.size = position.no_inventory +
          (fills.map FillEvent.size).sum) := by
  constructor
  · intro st cid token_id position fills env now hne hk h hns htid
    unfold handle_filled_orders
    rw [aggregate_fills_const_key fills cid token_id Side.buy hne hk,
      enum_singleton, List.foldl_cons, List.foldl_nil]
    unfold hfo_step
    dsimp only
    rw [h]
    dsimp only
    rw [if_pos rfl]
    dsimp only
    simp only [List.nil_append]
    obtain ⟨r, hr1, hr2, hr3, hr4⟩ := hfo_buy_branch_sell_trace st cid
      token_id (decide (token_id = position.token_id_yes))
      ((fills.map FillEvent.size).sum)
      (((env 0).mid).getD position.last_midpoint)
      { position with
        last_midpoint := ((env 0).mid).getD position.last_midpoint }
      (env 0) now hns
    rw [if_pos (decide_eq_true htid)] at hr4
    exact ⟨r, hr1, hr2, hr3, hr4⟩
  · intro st cid token_id position fills env now hne hk h hns htid
    unfold handle_filled_orders
    rw [aggregate_fills_const_key fills cid token_id Side.buy hne hk,
      enum_singleton, List.foldl_cons, List.foldl_nil]
    unfold hfo_step
    dsimp only
    rw [h]
    dsimp only
    rw [if_pos rfl]
    dsimp only
    simp only [List.nil_append]
    obtain ⟨r, hr1, hr2, hr3, hr4⟩ := hfo_buy_branch_sell_trace st cid
      token_id (decide (token_id = position.token_id_yes))
      ((fills.map FillEvent.size).sum)
      (((env 0).mid).getD position.last_midpoint)
      { position with
        last_midpoint := ((env 0).mid).getD position.last_midpoint }
      (env 0) now hns
    rw [if_neg (fun hh => htid (of_decide_eq_true hh))] at hr4
    exact ⟨r, hr1, hr2, hr3, hr4⟩

theorem c4_aggregated_buy_fills_one_sell_witness :
    ([(⟨"y1", Side.buy, 1/2, 4, "c1"⟩ : FillEvent),
      ⟨"y1", Side.buy, 1/2, 6, "c1"⟩] : List FillEvent) ≠ [] ∧
    (∀ f ∈ ([⟨"y1", Side.buy, 1/2, 4, "c1"⟩,
        ⟨"y1", Side.buy, 1/2, 6, "c1"⟩] : List FillEvent),
      f.condition_id = "c1" ∧ f.token_id = "y1" ∧ f.side = Side.buy) ∧
    alookup (OMState.positions { positions := [("c1",
      { condition_id := "c1", token_id_yes := "y1", token_id_no := "n1", max_spread := 3/100, min_size := 50, tick_size := 1/100, yes_inventory := 10 })] }) "c1" = some
      { condition_id := "c1", token_id_yes := "y1", token_id_no := "n1", max_spread := 3/100, min_size := 50, tick_size := 1/100, yes_inventory := 10 } ∧
    (MarketPosition.orders
      { condition_id := "c1", token_id_yes := "y1", token_id_no := "n1", max_spread := 3/100, min_size := 50, tick_size := 1/100, yes_inventory := 10 }).any
      (fun o => o.side = Side.sell ∧ o.token_id = "y1") = false ∧
    ("y1" : String) = MarketPosition.token_id_yes
      { condition_id := "c1", token_id_yes := "y1", token_id_no := "n1", max_spread := 3/100, min_size := 50, tick_size := 1/100, yes_inventory := 10 } ∧
    (∃ r, (handle_filled_orders { positions := [("c1",
        { condition_id := "c1", token_id_yes := "y1", token_id_no := "n1", max_spread := 3/100, min_size := 50, tick_size := 1/100, yes_inventory := 10 })] }
        [⟨"y1", Side.buy, 1/2, 4, "c1"⟩, ⟨"y1", Side.buy, 1/2, 6, "c1"⟩]
        (fun _ => ⟨none, some "s1"⟩) 50).2 = [r] ∧
      r.side = Side.sell ∧ r.token_id = "y1" ∧
      r.size = MarketPosition.yes_inventory
        { condition_id := "c1", token_id_yes := "y1", token_id_no := "n1", max_spread := 3/100, min_size := 50, tick_size := 1/100, yes_inventory := 10 } +
        (([⟨"y1", Side.buy, 1/2, 4, "c1"⟩,
          ⟨"y1", Side.buy, 1/2, 6, "c1"⟩] : List FillEvent).map
            FillEvent.size).sum) :=
  ⟨by simp,
   by
     intro f hf
     simp only [List.mem_cons, List.not_mem_nil, or_false] at hf
     rcases hf with hf | hf <;> subst hf <;> exact ⟨rfl, rfl, rfl⟩,
   rfl, rfl, rfl,
   c4_aggregated_buy_fills_one_sell.1
     { positions := [("c1",
       { condition_id := "c1", token_id_yes := "y1", token_id_no := "n1", max_spread := 3/100, min_size := 50, tick_size := 1/100, yes_inventory := 10 })] }
     "c1" "y1"
     { condition_id := "c1", token_id_yes := "y1", token_id_no := "n1", max_spread := 3/100, min_size := 50, tick_size := 1/100, yes_inventory := 10 }
     [⟨"y1", Side.buy, 1/2, 4, "c1"⟩, ⟨"y1", Side.buy, 1/2, 6, "c1"⟩]
     (fun _ => ⟨none, some "s1"⟩) 50
     (by simp)
     (by
       intro f hf
       simp only [List.mem_cons, List.not_mem_nil, or_false] at hf
       rcases hf with hf | hf <;> subst hf <;> exact ⟨rfl, rfl, rfl⟩)
     rfl rfl rfl⟩

theorem alookup_not_mem_keys {α β : Type} [DecidableEq α]
    {l : List (α × β)} {a : α} (h : a ∉ l.map Prod.fst) :
    alookup l a = none := by
  induction l with
  | nil => rfl
  | cons hd tl ih =>
    rw [List.map_cons, List.mem_cons] at h
    push_neg at h
    rw [alookup, if_neg (Ne.symm h.1)]
    exact ih h.2

theorem alookup_aerase_self {α β : Type} [DecidableEq α]
    (l : List (α × β)) (k : α) (hnd : (l.map Prod.fst).Nodup) :
    alookup (aerase l k) k = none := by
  induction l with
  | nil => rfl
  | cons hd tl ih =>
    obtain ⟨a, b⟩ := hd
    rw [List.map_cons, List.nodup_cons] at hnd
    rw [aerase]
    by_cases hk : a = k
    · rw [if_pos hk]
      subst hk
      exact alookup_not_mem_keys hnd.1
    · rw [if_neg hk, alookup, if_neg hk]
      exact ih hnd.2

theorem mem_listInsert_self (l : List String) (t : String) :
    t ∈ listInsert l t := by
  unfold listInsert
  split
  · rename_i h
    exact h
  · exact List.mem_append_right l (List.mem_singleton.mpr rfl)

/-- C7: in the retry sweep, once a side's consecutive SELL failure count
has reached MAX_SELL_RETRIES (for a side with pending inventory and no
live SELL), the remote balance decides: at most 0.5 shares remote zeroes
the local inventory, clears the entry price, removes the failure counter
and adds the token to the phantom set; more than 0.5 shares resets the
counter to 0, adopts the remote balance as local inventory and leaves the
phantom set unchanged. -/
theorem c7_max_retries_reconciliation :
    ∀ (st : OMState) (cid : String) (pos : MarketPosition) (is_yes : Bool)
      (env : RetryEnv) (now : ℚ),
      0 < (if is_yes then pos.yes_inventory else pos.no_inventory) →
      pos.orders.any (fun o => o.side = Side.sell ∧
        o.token_id = (if is_yes then pos.token_id_yes else pos.token_id_no))
        = false →
      MAX_SELL_RETRIES ≤ (alookup st.sell_fail_counts
        (FailKey.pair cid (if is_yes then pos.token_id_yes
          else pos.token_id_no))).getD 0 →
      (st.sell_fail_counts.map Prod.fst).Nodup →
      (env.on_chain (if is_yes then pos.token_id_yes
          else pos.token_id_no) ≤ 1/2 →
        (if is_yes then (retry_side st cid pos is_yes env now).1.yes_inventory
          else (retry_side st cid pos is_yes env now).1.no_inventory) = 0 ∧
        (if is_yes then
            (retry_side st cid pos is_yes env now).1.yes_entry_price
          else (retry_side st cid pos is_yes env now).1.no_entry_price)
          = 0 ∧
        alookup (retry_side st cid pos is_yes env now).2.1.sell_fail_counts
          (FailKey.pair cid (if is_yes then pos.token_id_yes
            else pos.token_id_no)) = none ∧
        (if is_yes then pos.token_id_yes else pos.token_id_no) ∈
          (retry_side st cid pos is_yes env now).2.1.phantom_tokens ∧
        (retry_side st cid pos is_yes env now).2.2 = []) ∧
      (1/2 < env.on_chain (if is_yes then pos.token_id_yes
          else pos.token_id_no) →
        alookup (retry_side st cid pos is_yes env now).2.1.sell_fail_counts
          (FailKey.pair cid (if is_yes then pos.token_id_yes
            else pos.token_id_no)) = some 0 ∧
        (if is_yes then (retry_side st cid pos is_yes env now).1.yes_inventory
          else (retry_side st cid pos is_yes env now).1.no_inventory) =
          env.on_chain (if is_yes then pos.token_id_yes
            else pos.token_id_no) ∧
        (retry_side st cid pos is_yes env now).2.1.phantom_tokens =
          st.phantom_tokens ∧
        (retry_side st cid pos is_yes env now).2.2 = []) := by
  intro st cid pos is_yes env now hinv hns hfc hnd
  cases is_yes with
  | true =>
    simp only [eq_self_iff_true, if_true] at hinv hns hfc ⊢
    unfold retry_side
    dsimp only
    simp only [eq_self_iff_true, if_true]
    rw [if_neg (not_le.mpr hinv)]
    rw [if_neg (by rw [hns]; simp)]
    rw [if_pos hfc]
    constructor
    · intro hle
      rw [if_neg (not_lt.mpr hle)]
      refine ⟨rfl, rfl, ?_, ?_, rfl⟩
      · rw [setPhantoms_counts, setCounts_counts]
        exact alookup_aerase_self _ _ hnd
      · rw [setPhantoms_phantoms]
        exact mem_listInsert_self _ _
    · intro hgt
      rw [if_pos hgt]
      refine ⟨?_, rfl, ?_, rfl⟩
      · rw [setCounts_counts]
        exact alookup_ainsert _ _ _
      · rw [setCounts_phantoms]
  | false =>
    simp only [Bool.false_eq_true, if_false] at hinv hns hfc ⊢
    unfold retry_side
    dsimp only
    simp only [Bool.false_eq_true, if_false]
    rw [if_neg (not_le.mpr hinv)]
    rw [if_neg (by rw [hns]; simp)]
    rw [if_pos hfc]
    constructor
    · intro hle
      rw [if_neg (not_lt.mpr hle)]
      refine ⟨rfl, rfl, ?_, ?_, rfl⟩
      · rw [setPhantoms_counts, setCounts_counts]
        exact alookup_aerase_self _ _ hnd
      · rw [setPhantoms_phantoms]
        exact mem_listInsert_self _ _
    · intro hgt
      rw [if_pos hgt]
      refine ⟨?_, rfl, ?_, rfl⟩
      · rw [setCounts_counts]
        exact alookup_ainsert _ _ _
      · rw [setCounts_phantoms]

theorem c7_max_retries_reconciliation_witness :
    (0 : ℚ) < MarketPosition.yes_inventory
      { condition_id := "c1", token_id_yes := "y1", token_id_no := "n1", max_spread := 3/100, min_size := 50, tick_size := 1/100, yes_inventory := 10 } ∧
    (MarketPosition.orders
      { condition_id := "c1", token_id_yes := "y1", token_id_no := "n1", max_spread := 3/100, min_size := 50, tick_size := 1/100, yes_inventory := 10 }).any
      (fun o => o.side = Side.sell ∧ o.token_id = "y1") = false ∧
    MAX_SELL_RETRIES ≤ (alookup (OMState.sell_fail_counts
      { sell_fail_counts := [(FailKey.pair "c1" "y1", 5)] })
      (FailKey.pair "c1" "y1")).getD 0 ∧
    (List.map Prod.fst (OMState.sell_fail_counts
      { sell_fail_counts := [(FailKey.pair "c1" "y1", 5)] })).Nodup ∧
    ((RetryEnv.on_chain ⟨fun _ => 0, fun _ => none, fun _ => none⟩ "y1" ≤ 1/2 →
      (retry_side { sell_fail_counts := [(FailKey.pair "c1" "y1", 5)] } "c1"
        { condition_id := "c1", token_id_yes := "y1", token_id_no := "n1", max_spread := 3/100, min_size := 50, tick_size := 1/100, yes_inventory := 10 }
        true ⟨fun _ => 0, fun _ => none, fun _ => none⟩ 100).1.yes_inventory = 0 ∧
      (retry_side { sell_fail_counts := [(FailKey.pair "c1" "y1", 5)] } "c1"
        { condition_id := "c1", token_id_yes := "y1", token_id_no := "n1", max_spread := 3/100, min_size := 50, tick_size := 1/100, yes_inventory := 10 }
        true ⟨fun _ => 0, fun _ => none, fun _ => none⟩ 100).1.yes_entry_price = 0 ∧
      alookup (retry_side { sell_fail_counts := [(FailKey.pair "c1" "y1", 5)] } "c1"
        { condition_id := "c1", token_id_yes := "y1", token_id_no := "n1", max_spread := 3/100, min_size := 50, tick_size := 1/100, yes_inventory := 10 }
        true ⟨fun _ => 0, fun _ => none, fun _ => none⟩ 100).2.1.sell_fail_counts
        (FailKey.pair "c1" "y1") = none ∧
      "y1" ∈ (retry_side { sell_fail_counts := [(FailKey.pair "c1" "y1", 5)] } "c1"
        { condition_id := "c1", token_id_yes := "y1", token_id_no := "n1", max_spread := 3/100, min_size := 50, tick_size := 1/100, yes_inventory := 10 }
        true ⟨fun _ => 0, fun _ => none, fun _ => none⟩ 100).2.1.phantom_tokens ∧
      (retry_side { sell_fail_counts := [(FailKey.pair "c1" "y1", 5)] } "c1"
        { condition_id := "c1", token_id_yes := "y1", token_id_no := "n1", max_spread := 3/100, min_size := 50, tick_size := 1/100, yes_inventory := 10 }
        true ⟨fun _ => 0, fun _ => none, fun _ => none⟩ 100).2.2 = []) ∧
    (1/2 < RetryEnv.on_chain ⟨fun _ => 0, fun _ => none, fun _ => none⟩ "y1" →
      alookup (retry_side { sell_fail_counts := [(FailKey.pair "c1" "y1", 5)] } "c1"
        { condition_id := "c1", token_id_yes := "y1", token_id_no := "n1", max_spread := 3/100, min_size := 50, tick_size := 1/100, yes_inventory := 10 }
        true ⟨fun _ => 0, fun _ => none, fun _ => none⟩ 100).2.1.sell_fail_counts
        (FailKey.pair "c1" "y1") = some 0 ∧
      (retry_side { sell_fail_counts := [(FailKey.pair "c1" "y1", 5)] } "c1"
        { condition_id := "c1", token_id_yes := "y1", token_id_no := "n1", max_spread := 3/100, min_size := 50, tick_size := 1/100, yes_inventory := 10 }
        true ⟨fun _ => 0, fun _ => none, fun _ => none⟩ 100).1.yes_inventory =
        RetryEnv.on_chain ⟨fun _ => 0, fun _ => none, fun _ => none⟩ "y1" ∧
      (retry_side { sell_fail_counts := [(FailKey.pair "c1" "y1", 5)] } "c1"
        { condition_id := "c1", token_id_yes := "y1", token_id_no := "n1", max_spread := 3/100, min_size := 50, tick_size := 1/100, yes_inventory := 10 }
        true ⟨fun _ => 0, fun _ => none, fun _ => none⟩ 100).2.1.phantom_tokens =
        OMState.phantom_tokens
          { sell_fail_counts := [(FailKey.pair "c1" "y1", 5)] } ∧
      (retry_side { sell_fail_counts := [(FailKey.pair "c1" "y1", 5)] } "c1"
        { condition_id := "c1", token_id_yes := "y1", token_id_no := "n1", max_spread := 3/100, min_size := 50, tick_size := 1/100, yes_inventory := 10 }
        true ⟨fun _ => 0, fun _ => none, fun _ => none⟩ 100).2.2 = [])) :=
  ⟨by norm_num,
   rfl,
   by norm_num [alookup, MAX_SELL_RETRIES],
   by simp,
   c7_max_retries_reconciliation
     { sell_fail_counts := [(FailKey.pair "c1" "y1", 5)] } "c1"
     { condition_id := "c1", token_id_yes := "y1", token_id_no := "n1", max_spread := 3/100, min_size := 50, tick_size := 1/100, yes_inventory := 10 }
     true ⟨fun _ => 0, fun _ => none, fun _ => none⟩ 100
     (by norm_num)
     rfl
     (by norm_num [alookup, MAX_SELL_RETRIES])
     (by simp)⟩

theorem countSellsFor_filter_le (l : List ActiveOrder)
    (P : ActiveOrder → Bool) (t : String) :
    countSellsFor (l.filter P) t ≤ countSellsFor l t :=
  List.Sublist.countP_le _ (List.filter_sublist l)

theorem atMostOneSell_filter (l : List ActiveOrder) (P : ActiveOrder → Bool)
    (h : atMostOneSell l) : atMostOneSell (l.filter P) :=
  fun t => le_trans (countSellsFor_filter_le l P t) (h t)

theorem countP_congr_fun {α : Type} (l : List α) (p q : α → Bool)
    (h : ∀ a, p a = q a) : l.countP p = l.countP q := by
  induction l with
  | nil => rfl
  | cons hd tl ih => rw [List.countP_cons, List.countP_cons, h hd, ih]

theorem atMostOneSell_update_size (l : List ActiveOrder) (oid : String)
    (r : ℚ) (h : atMostOneSell l) :
    atMostOneSell (l.map (fun o =>
      if o.order_id = oid then { o with size := r } else o)) := by
  intro t
  unfold countSellsFor
  rw [List.countP_map]
  have he2 : List.countP
      ((fun o => decide (o.side = Side.sell ∧ o.token_id = t)) ∘
        (fun o => if o.order_id = oid then { o with size := r } else o)) l =
      List.countP (fun o => decide (o.side = Side.sell ∧ o.token_id = t)) l
      := by
    apply countP_congr_fun
    intro o
    dsimp only [Function.comp]
    by_cases hc : o.order_id = oid
    · rw [if_pos hc]
    · rw [if_neg hc]
  rw [he2]
  exact h t

theorem atMostOneSell_append (l : List ActiveOrder) (o : ActiveOrder)
    (h : atMostOneSell l) (hzero : countSellsFor l o.token_id = 0) :
    atMostOneSell (l ++ [o]) := by
  intro t
  unfold countSellsFor at *
  rw [List.countP_append]
  by_cases hp : (o.side = Side.sell ∧ o.token_id = t)
  · rw [← hp.2]
    rw [hzero]
    have : List.countP
        (fun o' => decide (o'.side = Side.sell ∧ o'.token_id = o.token_id))
        [o] ≤ 1 := by
      rw [List.countP_cons, List.countP_nil]
      split <;> simp
    omega
  · have : List.countP
        (fun o' => decide (o'.side = Side.sell ∧ o'.token_id = t)) [o] = 0
        := by
      rw [List.countP_cons, List.countP_nil]
      rw [if_neg (by simpa using hp)]
    rw [this]
    have := h t
    unfold countSellsFor at this
    omega

theorem atMostOneSell_track (position : MarketPosition) (o : ActiveOrder)
    (h : atMostOneSell position.orders)
    (hzero : countSellsFor position.orders o.token_id = 0) :
    atMostOneSell ((track_order position o).1.orders) := by
  unfold track_order
  split
  · exact h
  · exact atMostOneSell_append _ _ h hzero

theorem place_order_fst (st : OMState) (token_id : String)
    (price size : ℚ) (side : Side) (cid : String) (mid now mos : ℚ)
    (resp : Option String) (o : ActiveOrder)
    (h : (place_order st token_id price size side cid mid now mos
      resp).1 = some o) :
    o.side = side ∧ o.token_id = token_id := by
  revert h
  simp only [place_order]
  split_ifs <;> intro h
  · exact absurd h (by simp)
  · exact absurd h (by simp)
  · exact absurd h (by simp)
  · exact absurd h (by simp)
  · revert h
    cases resp with
    | none => intro h; exact absurd h (by simp)
    | some oid =>
      intro h
      injection h with h
      subst h
      exact ⟨rfl, rfl⟩

theorem ledger_lookup (st : OMState) (cid : String)
    (pos : MarketPosition) (h : ledgerAtMostOneSell st)
    (hl : alookup st.positions cid = some pos) :
    atMostOneSell pos.orders :=
  h cid pos (alookup_mem hl)

theorem ledger_insert (st : OMState) (cid : String) (pos : MarketPosition)
    (h : ledgerAtMostOneSell st) (hp : atMostOneSell pos.orders) :
    ledgerAtMostOneSell (st.setPositions (ainsert st.positions cid pos))
    := by
  intro c p hm
  rw [setPositions_positions] at hm
  rcases mem_ainsert hm with hm | hm
  · exact h c p hm
  · rw [Prod.mk.injEq] at hm
    rw [hm.2]
    exact hp

theorem ledger_erase (st : OMState) (cid : String)
    (h : ledgerAtMostOneSell st) :
    ledgerAtMostOneSell (st.setPositions (aerase st.positions cid)) := by
  intro c p hm
  rw [setPositions_positions] at hm
  exact h c p (mem_aerase hm)

theorem ledger_setPositions_same (st : OMState)
    (h : ledgerAtMostOneSell st) :
    ledgerAtMostOneSell (st.setPositions st.positions) := by
  intro c p hm
  exact h c p hm

theorem ledger_setLGF (st : OMState) (t : ℚ) (h : ledgerAtMostOneSell st) :
    ledgerAtMostOneSell (st.setLastGlobalFill t) := by
  intro c p hm
  rw [setLastGlobalFill_positions] at hm
  exact h c p hm

theorem ledger_setCounts (st : OMState) (cs) (h : ledgerAtMostOneSell st) :
    ledgerAtMostOneSell (st.setCounts cs) := by
  intro c p hm
  rw [setCounts_positions] at hm
  exact h c p hm

theorem ledger_setPhantoms (st : OMState) (ph)
    (h : ledgerAtMostOneSell st) :
    ledgerAtMostOneSell (st.setPhantoms ph) := by
  intro c p hm
  rw [setPhantoms_positions] at hm
  exact h c p hm

theorem ledger_blacklist (st : OMState) (cid : String) (now : ℚ)
    (h : ledgerAtMostOneSell st) :
    ledgerAtMostOneSell (blacklist_market st cid now) := by
  intro c p hm
  unfold blacklist_market at hm
  rw [show (st.setBlacklist (ainsert st.market_blacklist cid
    now)).positions = st.positions from rfl] at hm
  exact h c p hm

theorem ledger_cancel_all_buys (st : OMState)
    (h : ledgerAtMostOneSell st) :
    ledgerAtMostOneSell (cancel_all_buys st) := by
  intro c p hm
  unfold cancel_all_buys at hm
  rw [setPositions_positions] at hm
  rw [List.mem_map] at hm
  obtain ⟨q, hq, hFq⟩ := hm
  have h2 : p = { q.2 with
      orders := q.2.orders.filter (fun o => o.side ≠ Side.buy) } := by
    have := congrArg Prod.snd hFq
    exact this.symm
  rw [h2]
  exact atMostOneSell_filter _ _ (h q.1 q.2 (by
    have : (q.1, q.2) = q := rfl
    rw [this]
    exact hq))

theorem ledger_cleanup (st : OMState) (h : ledgerAtMostOneSell st) :
    ledgerAtMostOneSell
      (st.setPositions (cleanupPositions st.positions)) := by
  intro c p hm
  rw [setPositions_positions] at hm
  unfold cleanupPositions at hm
  exact h c p (List.mem_of_mem_filter hm)

theorem ledger_wbc (st : OMState) (cid : String) (pos : MarketPosition)
    (h : ledgerAtMostOneSell st) (hp : atMostOneSell pos.orders) :
    ledgerAtMostOneSell (write_back_cleanup st cid pos) := by
  unfold write_back_cleanup
  split
  · exact ledger_erase st cid h
  · exact ledger_insert st cid pos h hp

theorem hfo_sell_branch_ledger (st : OMState) (cid : String)
    (is_yes : Bool) (sz : ℚ) (position : MarketPosition) (now : ℚ)
    (h : ledgerAtMostOneSell st) (hp : atMostOneSell position.orders) :
    ledgerAtMostOneSell (hfo_sell_branch st cid is_yes sz position now).1
    := by
  cases is_yes <;> exact ledger_insert st cid _ h hp

theorem hfo_buy_branch_ledger (st : OMState) (cid token_id : String)
    (is_yes : Bool) (sz mid : ℚ) (position : MarketPosition)
    (envi : FillKeyEnv) (now : ℚ)
    (h : ledgerAtMostOneSell st) (hp : atMostOneSell position.orders) :
    ledgerAtMostOneSell
      (hfo_buy_branch st cid token_id is_yes sz mid position envi now).1
      := by
  cases is_yes with
  | true =>
    unfold hfo_buy_branch
    dsimp only
    simp only [eq_self_iff_true, if_true]
    rw [if_pos (show GLOBAL_CIRCUIT_BREAKER = true by
      rw [GLOBAL_CIRCUIT_BREAKER])]
    rw [alookup_cancel_all_buys, setLastGlobalFill_positions,
      setPositions_positions, alookup_ainsert]
    simp only [Option.map_some', Option.getD_some]
    simp only [apply_ite MarketPosition.orders]
    simp only [ite_self]
    split
    · dsimp only
      apply ledger_insert
      · apply ledger_cancel_all_buys
        apply ledger_setLGF
        apply ledger_insert
        · exact h
        · exact atMostOneSell_filter _ _ hp
      · simp only [apply_ite MarketPosition.orders]
        simp only [ite_self]
        exact atMostOneSell_filter _ _ (atMostOneSell_filter _ _ hp)
    · rename_i hns
      dsimp only
      split
      · rename_i o heq
        apply ledger_insert
        · apply ledger_cancel_all_buys
          apply ledger_setLGF
          apply ledger_insert
          · exact h
          · exact atMostOneSell_filter _ _ hp
        · apply atMostOneSell_track
          · simp only [apply_ite MarketPosition.orders]
            simp only [ite_self]
            exact atMostOneSell_filter _ _ (atMostOneSell_filter _ _ hp)
          · rw [(place_order_fst _ _ _ _ _ _ _ _ _ _ _ heq).2]
            simp only [apply_ite MarketPosition.orders]
            simp only [ite_self]
            unfold countSellsFor
            rw [List.countP_eq_zero]
            intro o2 ho2
            have hns2 := List.any_eq_false.mp
              (Bool.eq_false_iff.mpr (fun hh => hns hh)) o2 ho2
            simpa using hns2
      · apply ledger_insert
        · apply ledger_cancel_all_buys
          apply ledger_setLGF
          apply ledger_insert
          · exact h
          · exact atMostOneSell_filter _ _ hp
        · simp only [apply_ite MarketPosition.orders]
          simp only [ite_self]
          exact atMostOneSell_filter _ _ (atMostOneSell_filter _ _ hp)
  | false =>
    unfold hfo_buy_branch
    dsimp only
    simp only [Bool.false_eq_true, if_false]
    rw [if_pos (show GLOBAL_CIRCUIT_BREAKER = true by
      rw [GLOBAL_CIRCUIT_BREAKER])]
    rw [alookup_cancel_all_buys, setLastGlobalFill_positions,
      setPositions_positions, alookup_ainsert]
    simp only [Option.map_some', Option.getD_some]
    simp only [apply_ite MarketPosition.orders]
    simp only [ite_self]
    split
    · dsimp only
      apply ledger_insert
      · apply ledger_cancel_all_buys
        apply ledger_setLGF
        apply ledger_insert
        · exact h
        · exact atMostOneSell_filter _ _ hp
      · simp only [apply_ite MarketPosition.orders]
        simp only [ite_self]
        exact atMostOneSell_filter _ _ (atMostOneSell_filter _ _ hp)
    · rename_i hns
      dsimp only
      split
      · rename_i o heq
        apply ledger_insert
        · apply ledger_cancel_all_buys
          apply ledger_setLGF
          apply ledger_insert
          · exact h
          · exact atMostOneSell_filter _ _ hp
        · apply atMostOneSell_track
          · simp only [apply_ite MarketPosition.orders]
            simp only [ite_self]
            exact atMostOneSell_filter _ _ (atMostOneSell_filter _ _ hp)
          · rw [(place_order_fst _ _ _ _ _ _ _ _ _ _ _ heq).2]
            simp only [apply_ite MarketPosition.orders]
            simp only [ite_self]
            unfold countSellsFor
            rw [List.countP_eq_zero]
            intro o2 ho2
            have hns2 := List.any_eq_false.mp
              (Bool.eq_false_iff.mpr (fun hh => hns hh)) o2 ho2
            simpa using hns2
      · apply ledger_insert
        · apply ledger_cancel_all_buys
          apply ledger_setLGF
          apply ledger_insert
          · exact h
          · exact atMostOneSell_filter _ _ hp
        · simp only [apply_ite MarketPosition.orders]
          simp only [ite_self]
          exact atMostOneSell_filter _ _ (atMostOneSell_filter _ _ hp)

theorem hfo_step_ledger (env : ℕ → FillKeyEnv) (now : ℚ)
    (acc : OMState × List OrderRequest)
    (item : ℕ × ((String × String × Side) × ℚ))
    (h : ledgerAtMostOneSell acc.1) :
    ledgerAtMostOneSell (hfo_step env now acc item).1 := by
  obtain ⟨st, trace⟩ := acc
  obtain ⟨i, ⟨⟨cid, token_id, side⟩, sz⟩⟩ := item
  unfold hfo_step
  dsimp only
  cases hl : alookup st.positions cid with
  | none => exact h
  | some position =>
    dsimp only
    have hp : atMostOneSell position.orders := ledger_lookup st cid position h hl
    cases side with
    | buy =>
      rw [if_pos rfl]
      exact hfo_buy_branch_ledger _ _ _ _ _ _ _ _ _ h hp
    | sell =>
      rw [if_neg (by simp)]
      dsimp only
      exact hfo_sell_branch_ledger _ _ _ _ _ _ h hp

theorem foldl_hfo_ledger (env : ℕ → FillKeyEnv) (now : ℚ) :
    ∀ (l : List (ℕ × ((String × String × Side) × ℚ)))
      (acc : OMState × List OrderRequest),
      ledgerAtMostOneSell acc.1 →
      ledgerAtMostOneSell (l.foldl (hfo_step env now) acc).1 := by
  intro l
  induction l with
  | nil => intro acc h; exact h
  | cons hd tl ih =>
    intro acc h
    rw [List.foldl_cons]
    exact ih _ (hfo_step_ledger _ _ _ _ h)

theorem handle_filled_orders_ledger (st : OMState) (fills : List FillEvent)
    (env : ℕ → FillKeyEnv) (now : ℚ) (h : ledgerAtMostOneSell st) :
    ledgerAtMostOneSell (handle_filled_orders st fills env now).1 := by
  unfold handle_filled_orders
  dsimp only
  exact ledger_cleanup _ (foldl_hfo_ledger env now _ (st, []) h)

theorem ws_sell_branch_ledger (st : OMState) (cid : String)
    (position : MarketPosition) (is_yes : Bool) (sm now : ℚ)
    (h : ledgerAtMostOneSell st) (hp : atMostOneSell position.orders) :
    ledgerAtMostOneSell
      (ws_sell_branch st cid position is_yes sm now).1 := by
  cases is_yes <;>
  · unfold ws_sell_branch
    dsimp only
    apply ledger_wbc _ _ _ h
    simp only [apply_ite MarketPosition.orders]
    simp only [ite_self]
    exact hp

theorem find_tracked_order_mem :
    ∀ (ps : List (String × MarketPosition)) (oid cid : String)
      (pos : MarketPosition) (mo : ActiveOrder),
      find_tracked_order ps oid = some (cid, pos, mo) → (cid, pos) ∈ ps := by
  intro ps
  induction ps with
  | nil => intro oid cid pos mo h; exact absurd h (by simp [find_tracked_order])
  | cons hd tl ih =>
    intro oid cid pos mo h
    obtain ⟨c, q⟩ := hd
    rw [find_tracked_order] at h
    revert h
    cases hfind : q.orders.find? (fun o => o.order_id = oid) with
    | some ord =>
      intro h
      injection h with h
      rw [Prod.mk.injEq] at h
      obtain ⟨h1, h2⟩ := h
      rw [Prod.mk.injEq] at h2
      exact List.mem_cons.mpr (Or.inl (by rw [h1, h2.1]))
    | none =>
      intro h
      exact List.mem_cons.mpr (Or.inr (ih oid cid pos mo h))

theorem ws_untracked_update_ams (asset : String) (sm now : ℚ)
    (pos pos2 : MarketPosition)
    (h : ws_untracked_update asset sm now pos = some pos2)
    (hp : atMostOneSell pos.orders) : atMostOneSell pos2.orders := by
  unfold ws_untracked_update at h
  split_ifs at h
  · injection h with h
    subst h
    simp only [apply_ite MarketPosition.orders]
    simp only [ite_self]
    exact atMostOneSell_filter _ _ hp
  · injection h with h
    subst h
    simp only [apply_ite MarketPosition.orders]
    simp only [ite_self]
    exact atMostOneSell_filter _ _ hp

theorem ws_untracked_scan_ams (asset : String) (sm now : ℚ) :
    ∀ (ps ps2 : List (String × MarketPosition)),
      ws_untracked_scan asset sm now ps = some ps2 →
      (∀ cp ∈ ps, atMostOneSell cp.2.orders) →
      ∀ cp ∈ ps2, atMostOneSell cp.2.orders := by
  intro ps
  induction ps with
  | nil =>
    intro ps2 hscan
    rw [ws_untracked_scan] at hscan
    exact absurd hscan (by simp)
  | cons hd tl ih =>
    intro ps2 hscan hall
    obtain ⟨c, pos⟩ := hd
    rw [ws_untracked_scan] at hscan
    revert hscan
    cases hupd : ws_untracked_update asset sm now pos with
    | some pos2 =>
      intro hscan
      injection hscan with hscan
      subst hscan
      intro cp hcp
      have hpos : atMostOneSell pos.orders :=
        hall (c, pos) (List.mem_cons_self _ _)
      have htl : ∀ cp ∈ tl, atMostOneSell cp.2.orders :=
        fun cp2 hcp2 => hall cp2 (List.mem_cons_of_mem _ hcp2)
      revert hcp
      split
      · intro hcp
        exact htl cp hcp
      · intro hcp
        rcases List.mem_cons.mp hcp with hcp | hcp
        · rw [hcp]
          exact ws_untracked_update_ams asset sm now pos pos2 hupd hpos
        · exact htl cp hcp
    | none =>
      cases hrec : ws_untracked_scan asset sm now tl with
      | none =>
        intro hscan
        exact absurd hscan (by simp)
      | some rest2 =>
        intro hscan
        injection hscan with hscan
        subst hscan
        intro cp hcp
        rcases List.mem_cons.mp hcp with hcp | hcp
        · rw [hcp]
          exact hall (c, pos) (List.mem_cons_self _ _)
        · exact ih rest2 hrec
            (fun cp2 hcp2 => hall cp2 (List.mem_cons_of_mem _ hcp2)) cp hcp

theorem blacklist_market_positions (st : OMState) (cid : String)
    (now : ℚ) : (blacklist_market st cid now).positions = st.positions :=
  rfl

theorem ws_buy_branch_ledger (st : OMState) (cid : String)
    (position : MarketPosition) (token_id : String) (is_yes : Bool)
    (sm price : ℚ) (env : WsEnv) (now : ℚ)
    (h : ledgerAtMostOneSell st) (hp : atMostOneSell position.orders) :
    ledgerAtMostOneSell
      (ws_buy_branch st cid position token_id is_yes sm price env
        now).1 := by
  cases is_yes with
  | true =>
    unfold ws_buy_branch
    dsimp only
    simp only [eq_self_iff_true, if_true]
    rw [if_pos (show GLOBAL_CIRCUIT_BREAKER = true by
      rw [GLOBAL_CIRCUIT_BREAKER])]
    rw [blacklist_market_positions, alookup_cancel_all_buys,
      setLastGlobalFill_positions, setPositions_positions, alookup_ainsert]
    simp only [Option.map_some', Option.getD_some]
    simp only [apply_ite MarketPosition.orders]
    simp only [ite_self]
    split
    · dsimp only
      apply ledger_insert
      · apply ledger_blacklist
        apply ledger_cancel_all_buys
        apply ledger_setLGF
        apply ledger_insert
        · exact h
        · exact atMostOneSell_filter _ _ hp
      · first
          | simp only [apply_ite MarketPosition.orders, ite_self]
          | skip
        first
          | exact atMostOneSell_filter _ _ (atMostOneSell_filter _ _ hp)
          | exact atMostOneSell_filter _ _ hp
    · rename_i hns
      dsimp only
      split
      · rename_i o heq
        apply ledger_wbc
        · apply ledger_blacklist
          apply ledger_cancel_all_buys
          apply ledger_setLGF
          apply ledger_insert
          · exact h
          · exact atMostOneSell_filter _ _ hp
        · apply atMostOneSell_track
          · first
              | simp only [apply_ite MarketPosition.orders, ite_self]
              | skip
            first
              | exact atMostOneSell_filter _ _ (atMostOneSell_filter _ _ hp)
              | exact atMostOneSell_filter _ _ hp
          · rw [(place_order_fst _ _ _ _ _ _ _ _ _ _ _ heq).2]
            first
              | simp only [apply_ite MarketPosition.orders, ite_self]
              | skip
            unfold countSellsFor
            rw [List.countP_eq_zero]
            intro o2 ho2
            have hns2 := List.any_eq_false.mp
              (Bool.eq_false_iff.mpr (fun hh => hns hh)) o2 ho2
            simpa using hns2
      · apply ledger_wbc
        · apply ledger_blacklist
          apply ledger_cancel_all_buys
          apply ledger_setLGF
          apply ledger_insert
          · exact h
          · exact atMostOneSell_filter _ _ hp
        · first
            | simp only [apply_ite MarketPosition.orders, ite_self]
            | skip
          first
            | exact atMostOneSell_filter _ _ (atMostOneSell_filter _ _ hp)
            | exact atMostOneSell_filter _ _ hp
  | false =>
    unfold ws_buy_branch
    dsimp only
    simp only [Bool.false_eq_true, if_false]
    rw [if_pos (show GLOBAL_CIRCUIT_BREAKER = true by
      rw [GLOBAL_CIRCUIT_BREAKER])]
    rw [blacklist_market_positions, alookup_cancel_all_buys,
      setLastGlobalFill_positions, setPositions_positions, alookup_ainsert]
    simp only [Option.map_some', Option.getD_some]
    simp only [apply_ite MarketPosition.orders]
    simp only [ite_self]
    split
    · dsimp only
      apply ledger_insert
      · apply ledger_blacklist
        apply ledger_cancel_all_buys
        apply ledger_setLGF
        apply ledger_insert
        · exact h
        · exact atMostOneSell_filter _ _ hp
      · first
          | simp only [apply_ite MarketPosition.orders, ite_self]
          | skip
        first
          | exact atMostOneSell_filter _ _ (atMostOneSell_filter _ _ hp)
          | exact atMostOneSell_filter _ _ hp
    · rename_i hns
      dsimp only
      split
      · rename_i o heq
        apply ledger_wbc
        · apply ledger_blacklist
          apply ledger_cancel_all_buys
          apply ledger_setLGF
          apply ledger_insert
          · exact h
          · exact atMostOneSell_filter _ _ hp
        · apply atMostOneSell_track
          · first
              | simp only [apply_ite MarketPosition.orders, ite_self]
              | skip
            first
              | exact atMostOneSell_filter _ _ (atMostOneSell_filter _ _ hp)
              | exact atMostOneSell_filter _ _ hp
          · rw [(place_order_fst _ _ _ _ _ _ _ _ _ _ _ heq).2]
            first
              | simp only [apply_ite MarketPosition.orders, ite_self]
              | skip
            unfold countSellsFor
            rw [List.countP_eq_zero]
            intro o2 ho2
            have hns2 := List.any_eq_false.mp
              (Bool.eq_false_iff.mpr (fun hh => hns hh)) o2 ho2
            simpa using hns2
      · apply ledger_wbc
        · apply ledger_blacklist
          apply ledger_cancel_all_buys
          apply ledger_setLGF
          apply ledger_insert
          · exact h
          · exact atMostOneSell_filter _ _ hp
        · first
            | simp only [apply_ite MarketPosition.orders, ite_self]
            | skip
          first
            | exact atMostOneSell_filter _ _ (atMostOneSell_filter _ _ hp)
            | exact atMostOneSell_filter _ _ hp

theorem handle_ws_fill_ledger (st : OMState)
    (oid aid sf : String) (sm price : ℚ) (env : WsEnv) (now : ℚ)
    (h : ledgerAtMostOneSell st) :
    ledgerAtMostOneSell (handle_ws_fill st oid aid sf sm price env now).1
    := by
  unfold handle_ws_fill
  cases hf : find_tracked_order st.positions oid with
  | none =>
    dsimp only
    cases hscan : ws_untracked_scan aid sm now st.positions with
    | none => exact h
    | some ps2 =>
      dsimp only
      intro c p hm
      rw [setPositions_positions] at hm
      exact ws_untracked_scan_ams aid sm now st.positions ps2 hscan
        (fun cp hcp => h cp.1 cp.2 (by
          rw [show (cp.1, cp.2) = cp from rfl]
          exact hcp)) (c, p) hm
  | some t =>
    obtain ⟨cid, position, mo⟩ := t
    dsimp only
    have hp : atMostOneSell position.orders :=
      h cid position (find_tracked_order_mem st.positions oid cid position
        mo hf)
    have hp2 : atMostOneSell
        ((if 1/1000 < mo.size - sm then { position with orders := position.orders.map (fun o => if o.order_id = oid then { o with size := mo.size - sm } else o) } else { position with orders := position.orders.filter (fun o => o.order_id ≠ oid) }) : MarketPosition).orders := by
      simp only [apply_ite MarketPosition.orders]
      split
      · exact atMostOneSell_update_size _ _ _ hp
      · exact atMostOneSell_filter _ _ hp
    cases hside : mo.side with
    | buy =>
      rw [if_pos rfl]
      exact ws_buy_branch_ledger _ _ _ _ _ _ _ _ _ h hp2
    | sell =>
      rw [if_neg (by simp)]
      exact ws_sell_branch_ledger _ _ _ _ _ _ h hp2

theorem applyFillPathEvent_ledger (st : OMState) (e : FillPathEvent)
    (h : ledgerAtMostOneSell st) :
    ledgerAtMostOneSell (applyFillPathEvent st e) := by
  cases e with
  | rest fills env now => exact handle_filled_orders_ledger st fills env now h
  | ws oid aid sf sm price env now =>
    exact handle_ws_fill_ledger st oid aid sf sm price env now h

/-- C2: after any finite sequence of fill events (REST batches through
`handle_filled_orders`, streamed trades through `handle_ws_fill`) the
ledger keeps at most one tracked SELL per token id in every position, and
neither fill path's BUY branch emits any request — in particular no
SELL — when a SELL for the fill's token is already tracked. -/
theorem c2_at_most_one_sell :
    (∀ (st : OMState) (events : List FillPathEvent),
      ledgerAtMostOneSell st →
      ledgerAtMostOneSell (events.foldl applyFillPathEvent st)) ∧
    (∀ (st : OMState) (cid token_id : String) (is_yes : Bool) (sz mid : ℚ)
        (position : MarketPosition) (envi : FillKeyEnv) (now : ℚ),
      position.orders.any
        (fun o => o.side = Side.sell ∧ o.token_id = token_id) = true →
      (hfo_buy_branch st cid token_id is_yes sz mid position envi now).2
        = []) ∧
    (∀ (st : OMState) (cid : String) (position : MarketPosition)
        (token_id : String) (is_yes : Bool) (sm price : ℚ) (env : WsEnv)
        (now : ℚ),
      position.orders.any
        (fun o => o.side = Side.sell ∧ o.token_id = token_id) = true →
      (ws_buy_branch st cid position token_id is_yes sm price env now).2
        = []) := by
  refine ⟨?_, ?_, ?_⟩
  · intro st events
    induction events generalizing st with
    | nil => intro h; exact h
    | cons e tl ih =>
      intro h
      rw [List.foldl_cons]
      exact ih _ (applyFillPathEvent_ledger st e h)
  · intro st cid token_id is_yes sz mid position envi now hs
    cases is_yes with
    | true =>
        unfold hfo_buy_branch
        dsimp only
        simp only [eq_self_iff_true, if_true]
        rw [if_pos (show GLOBAL_CIRCUIT_BREAKER = true by
          rw [GLOBAL_CIRCUIT_BREAKER])]
        rw [alookup_cancel_all_buys, setLastGlobalFill_positions,
          setPositions_positions, alookup_ainsert]
        simp only [Option.map_some', Option.getD_some]
        simp only [apply_ite MarketPosition.orders]
        simp only [ite_self]
        rw [if_pos (show (List.filter (fun o => decide (o.side ≠ Side.buy))
            (List.filter (fun o => decide (o.side ≠ Side.buy))
              position.orders)).any
            (fun o => decide (o.side = Side.sell ∧ o.token_id = token_id))
            = true by
          rw [List.any_eq_true] at hs ⊢
          obtain ⟨o, ho, hQ⟩ := hs
          refine ⟨o, ?_, hQ⟩
          have hP : decide (o.side ≠ Side.buy) = true := by
            rw [(of_decide_eq_true hQ).1]
            decide
          exact List.mem_filter.mpr ⟨List.mem_filter.mpr ⟨ho, hP⟩, hP⟩)]
    | false =>
        unfold hfo_buy_branch
        dsimp only
        simp only [Bool.false_eq_true, if_false]
        rw [if_pos (show GLOBAL_CIRCUIT_BREAKER = true by
          rw [GLOBAL_CIRCUIT_BREAKER])]
        rw [alookup_cancel_all_buys, setLastGlobalFill_positions,
          setPositions_positions, alookup_ainsert]
        simp only [Option.map_some', Option.getD_some]
        simp only [apply_ite MarketPosition.orders]
        simp only [ite_self]
        rw [if_pos (show (List.filter (fun o => decide (o.side ≠ Side.buy))
            (List.filter (fun o => decide (o.side ≠ Side.buy))
              position.orders)).any
            (fun o => decide (o.side = Side.sell ∧ o.token_id = token_id))
            = true by
          rw [List.any_eq_true] at hs ⊢
          obtain ⟨o, ho, hQ⟩ := hs
          refine ⟨o, ?_, hQ⟩
          have hP : decide (o.side ≠ Side.buy) = true := by
            rw [(of_decide_eq_true hQ).1]
            decide
          exact List.mem_filter.mpr ⟨List.mem_filter.mpr ⟨ho, hP⟩, hP⟩)]
  · intro st cid position token_id is_yes sm price env now hs
    cases is_yes with
    | true =>
        unfold ws_buy_branch
        dsimp only
        simp only [eq_self_iff_true, if_true]
        rw [if_pos (show GLOBAL_CIRCUIT_BREAKER = true by
          rw [GLOBAL_CIRCUIT_BREAKER])]
        rw [blacklist_market_positions, alookup_cancel_all_buys,
          setLastGlobalFill_positions, setPositions_positions, alookup_ainsert]
        simp only [Option.map_some', Option.getD_some]
        simp only [apply_ite MarketPosition.orders]
        simp only [ite_self]
        rw [if_pos (show (List.filter (fun o => decide (o.side ≠ Side.buy))
            (List.filter (fun o => decide (o.side ≠ Side.buy))
              position.orders)).any
            (fun o => decide (o.side = Side.sell ∧ o.token_id = token_id))
            = true by
          rw [List.any_eq_true] at hs ⊢
          obtain ⟨o, ho, hQ⟩ := hs
          refine ⟨o, ?_, hQ⟩
          have hP : decide (o.side ≠ Side.buy) = true := by
            rw [(of_decide_eq_true hQ).1]
            decide
          exact List.mem_filter.mpr ⟨List.mem_filter.mpr ⟨ho, hP⟩, hP⟩)]
    | false =>
        unfold ws_buy_branch
        dsimp only
        simp only [Bool.false_eq_true, if_false]
        rw [if_pos (show GLOBAL_CIRCUIT_BREAKER = true by
          rw [GLOBAL_CIRCUIT_BREAKER])]
        rw [blacklist_market_positions, alookup_cancel_all_buys,
          setLastGlobalFill_positions, setPositions_positions, alookup_ainsert]
        simp only [Option.map_some', Option.getD_some]
        simp only [apply_ite MarketPosition.orders]
        simp only [ite_self]
        rw [if_pos (show (List.filter (fun o => decide (o.side ≠ Side.buy))
            (List.filter (fun o => decide (o.side ≠ Side.buy))
              position.orders)).any
            (fun o => decide (o.side = Side.sell ∧ o.token_id = token_id))
            = true by
          rw [List.any_eq_true] at hs ⊢
          obtain ⟨o, ho, hQ⟩ := hs
          refine ⟨o, ?_, hQ⟩
          have hP : decide (o.side ≠ Side.buy) = true := by
            rw [(of_decide_eq_true hQ).1]
            decide
          exact List.mem_filter.mpr ⟨List.mem_filter.mpr ⟨ho, hP⟩, hP⟩)]

theorem c2_at_most_one_sell_witness :
    ledgerAtMostOneSell ({} : OMState) ∧
    ledgerAtMostOneSell
      (([FillPathEvent.ws "o1" "y1" "SELL" 5 (1/2) ⟨none, none⟩ 50]).foldl
        applyFillPathEvent ({} : OMState)) :=
  ⟨by
    intro c p hm
    exact absurd hm (by simp),
   c2_at_most_one_sell.1 ({} : OMState) _ (by
    intro c p hm
    exact absurd hm (by simp))⟩
